import Mathlib

/-
Verification development for the AISubBrawl server world engine
(file server_world_db.py).  The Python physics, guidance, sonar and
command-handler functions are shallowly embedded as Lean functions over
the real numbers; machine floats are idealised as reals, random draws
become explicit parameters, and database rows become record values.
-/

namespace SubBrawl

open Real Classical

/-- Translation of the helper clamp(v, lo, hi) = max(lo, min(hi, v)). -/
def clamp (v lo hi : ℝ) : ℝ := max lo (min hi v)

/-- Closed form of the helper wrap_angle: the source loops
while a >= pi subtracting 2 pi and while a < -pi adding 2 pi, which
normalises the angle into the half-open interval from -pi (included)
to pi (excluded) by subtracting the unique suitable integer multiple
of 2 pi.  The floor expression below computes exactly that multiple;
the lemmas wrapAngle_mem, wrapAngle_eq_self and wrapAngle_sub_int_mul
certify that it coincides with the loop. -/
noncomputable def wrapAngle (a : ℝ) : ℝ :=
  a - 2 * π * ⌊(a + π) / (2 * π)⌋

/-- Translation of math.radians. -/
noncomputable def radians (d : ℝ) : ℝ := d * π / 180

/-- Translation of math.degrees. -/
noncomputable def degrees (r : ℝ) : ℝ := r * 180 / π

/-- Translation of distance(x1, y1, x2, y2) = math.hypot(x2-x1, y2-y1). -/
noncomputable def distance (x1 y1 x2 y2 : ℝ) : ℝ :=
  Real.sqrt ((x2 - x1) ^ 2 + (y2 - y1) ^ 2)

/-- Translation of distance3d. -/
noncomputable def distance3d (ax ay az bx by_ bz : ℝ) : ℝ :=
  Real.sqrt ((ax - bx) ^ 2 + (ay - by_) ^ 2 + (az - bz) ^ 2)

/-- Translation of math.atan2(y, x), realised as the principal argument
of the complex number x + i y (both return an angle in the interval
from -pi excluded to pi included, with atan2(0, 0) = 0). -/
noncomputable def atan2 (y x : ℝ) : ℝ := Complex.arg ⟨x, y⟩

/-- Emergency blow section of the sub configuration (DEFAULT_CFG sub
emergency_blow). -/
structure BlowCfg where
  duration_s : ℝ
  upward_mps : ℝ
  recharge_per_s_at_snorkel : ℝ

/-- Battery section of the sub configuration (DEFAULT_CFG sub battery). -/
structure BatteryCfg where
  drain_per_throttle_per_s : ℝ
  recharge_per_s_snorkel : ℝ

/-- Submarine section of the game configuration, together with the two
values read with a default by update_sub (max_rudder_deg 30 and
rudder_rate_deg_s 60, absent from DEFAULT_CFG). -/
structure SubCfg where
  max_speed : ℝ
  yaw_rate_deg_s : ℝ
  pitch_rate_deg_s : ℝ
  planes_effect : ℝ
  neutral_bias : ℝ
  depth_damping : ℝ
  snorkel_depth : ℝ
  snorkel_off_hysteresis : ℝ
  emergency_blow : BlowCfg
  battery : BatteryCfg
  crush_depth : ℝ
  crush_dps_per_100m : ℝ
  max_rudder_deg : ℝ
  rudder_rate_deg_s : ℝ

/-- Torpedo section of the game configuration. -/
structure TorpCfg where
  speed : ℝ
  turn_rate_deg_s : ℝ
  depth_rate_m_s : ℝ
  blast_radius : ℝ
  lifetime_s : ℝ
  default_wire : ℝ
  max_range : ℝ
  proximity_fuze_m : ℝ
  arming_delay_s : ℝ

/-- Passive sonar section of the game configuration. -/
structure PassiveCfg where
  base_snr : ℝ
  speed_noise_gain : ℝ
  snorkel_bonus : ℝ
  bearing_jitter_deg : ℝ

/-- Active sonar section of the game configuration. -/
structure ActiveCfg where
  max_range : ℝ
  sound_speed : ℝ
  rng_sigma_m : ℝ
  brg_sigma_deg : ℝ

/-- Active sonar power section of the game configuration. -/
structure ActivePowerCfg where
  cost_per_ping : ℝ
  cost_per_degree : ℝ
  min_battery : ℝ

/-- The game configuration sections used by the embedded functions. -/
structure Cfg where
  sub : SubCfg
  torpedo : TorpCfg
  passive : PassiveCfg
  active : ActiveCfg
  active_power : ActivePowerCfg

/-- The DEFAULT_CFG values (including the update_sub defaults
max_rudder_deg = 30 and rudder_rate_deg_s = 60). -/
def defaultCfg : Cfg where
  sub :=
    { max_speed := 6
      yaw_rate_deg_s := 20
      pitch_rate_deg_s := 12
      planes_effect := 1
      neutral_bias := 0.008
      depth_damping := 0.35
      snorkel_depth := 15
      snorkel_off_hysteresis := 2
      emergency_blow :=
        { duration_s := 10
          upward_mps := 5
          recharge_per_s_at_snorkel := 0.06 }
      battery :=
        { drain_per_throttle_per_s := 0.02
          recharge_per_s_snorkel := 0.25 }
      crush_depth := 500
      crush_dps_per_100m := 30
      max_rudder_deg := 30
      rudder_rate_deg_s := 60 }
  torpedo :=
    { speed := 12
      turn_rate_deg_s := 30
      depth_rate_m_s := 6
      blast_radius := 60
      lifetime_s := 240
      default_wire := 600
      max_range := 5000
      proximity_fuze_m := 0
      arming_delay_s := 1 }
  passive :=
    { base_snr := 8
      speed_noise_gain := 0.6
      snorkel_bonus := 8
      bearing_jitter_deg := 3 }
  active :=
    { max_range := 6000
      sound_speed := 1500
      rng_sigma_m := 40
      brg_sigma_deg := 1.5 }
  active_power :=
    { cost_per_ping := 1
      cost_per_degree := 0.01
      min_battery := 5 }

/-- State of one SubModel row (the fields touched by the embedded
functions).  Identifiers are modelled as naturals; ping_cooldown is the
transient attribute set by the ping handler, absent (none) on a fresh
row. -/
structure SubState where
  id : ℕ
  owner_id : ℕ
  x : ℝ
  y : ℝ
  depth : ℝ
  heading : ℝ
  pitch : ℝ
  rudder_angle : ℝ
  rudder_cmd : ℝ
  planes : ℝ
  throttle : ℝ
  target_depth : Option ℝ
  speed : ℝ
  battery : ℝ
  is_snorkeling : Bool
  blow_active : Bool
  blow_charge : ℝ
  blow_end : ℝ
  health : ℝ
  passive_dir : ℝ
  last_report : ℝ
  ping_cooldown : Option ℝ

/-- Translation of update_sub(s, dt, now): one physics tick for a
submarine.  The field updates are applied in source order, each later
computation reading the already updated fields, exactly as the Python
mutates s in place. -/
noncomputable def update_sub (cfg : Cfg) (s : SubState) (dt now : ℝ) : SubState :=
  let scfg := cfg.sub
  let max_spd := scfg.max_speed
  let yaw_rate_rad := radians scfg.yaw_rate_deg_s
  let pitch_rate := radians scfg.pitch_rate_deg_s
  let planes_eff := scfg.planes_effect
  let neutral := scfg.neutral_bias
  let crush_depth := scfg.crush_depth
  let crush_dps := scfg.crush_dps_per_100m
  let MAX_RUDDER_RAD := radians scfg.max_rudder_deg
  let MAX_RUDDER_STEP := radians scfg.rudder_rate_deg_s * dt
  -- RUDDER servo
  let rudder_cmd := clamp s.rudder_cmd (-1) 1
  let target_rudder_angle := rudder_cmd * MAX_RUDDER_RAD
  let error := target_rudder_angle - s.rudder_angle
  let ra1 := s.rudder_angle + clamp error (-MAX_RUDDER_STEP) MAX_RUDDER_STEP
  let rudder_angle := clamp ra1 (-MAX_RUDDER_RAD) MAX_RUDDER_RAD
  -- Heading integration
  let rudder_frac := if MAX_RUDDER_RAD = 0 then 0 else rudder_angle / MAX_RUDDER_RAD
  let heading := wrapAngle (s.heading + yaw_rate_rad * rudder_frac * dt)
  -- Planes to pitch
  let target_pitch := clamp (s.planes * planes_eff) (-1) 1 * radians 20
  let pitch1 := s.pitch + clamp (target_pitch - s.pitch) (-(pitch_rate * dt)) (pitch_rate * dt)
  -- Speed
  let speed := clamp s.throttle 0 1 * max_spd
  -- Vertical dynamics
  let v0 := neutral * (1 - s.throttle)
  -- Emergency blow
  let ebcfg := scfg.emergency_blow
  let blowing := s.blow_active ∧ now < s.blow_end ∧ s.blow_charge > 0
  let v1 := if blowing then v0 - ebcfg.upward_mps else v0
  let blow_charge1 := if blowing then clamp (s.blow_charge - dt / ebcfg.duration_s) 0 1
                      else s.blow_charge
  let blow_active := if blowing then s.blow_active else false
  -- Depth hold autopilot
  let autopilot_on := s.target_depth.isSome ∧ |s.planes| < 0.05
  let err_m := (s.target_depth.getD 0) - s.depth
  let ap_pitch := clamp (-err_m * radians 0.5) (-(radians 25)) (radians 25)
  let pitch := if autopilot_on then
      pitch1 + clamp (ap_pitch - pitch1) (-(pitch_rate * dt)) (pitch_rate * dt)
    else pitch1
  let v2 := if autopilot_on then v1 + clamp (err_m * 0.02) (-1.5) 1.5 else v1
  -- Hydrodynamic lift
  let v3 := v2 - Real.sin pitch * max 0 speed * 0.45
  -- Apply vertical
  let depth := max 0 (s.depth + v3 * dt)
  -- XY
  let x := s.x + Real.cos heading * speed * dt
  let y := s.y + Real.sin heading * speed * dt
  -- Battery drain, then snorkel recharge and auto-off with hysteresis
  let bcfg := scfg.battery
  let battery1 := max 0 (min 100 (s.battery - s.throttle * bcfg.drain_per_throttle_per_s * dt))
  let recharging := s.is_snorkeling ∧ depth ≤ scfg.snorkel_depth
  let battery := if recharging then clamp (battery1 + bcfg.recharge_per_s_snorkel * dt) 0 100
                 else battery1
  let blow_charge := if recharging then
      clamp (blow_charge1 + ebcfg.recharge_per_s_at_snorkel * dt) 0 1
    else blow_charge1
  let is_snorkeling :=
    if s.is_snorkeling ∧ depth > scfg.snorkel_depth + scfg.snorkel_off_hysteresis then false
    else s.is_snorkeling
  -- Low battery safety
  let throttle := if battery ≤ 0 then min s.throttle 0.1 else s.throttle
  -- Crush damage
  let health := if depth > crush_depth then
      max 0 (s.health - (depth - crush_depth) / 100 * crush_dps * dt)
    else s.health
  { s with
    rudder_cmd := rudder_cmd
    rudder_angle := rudder_angle
    heading := heading
    pitch := pitch
    speed := speed
    blow_charge := blow_charge
    blow_active := blow_active
    depth := depth
    x := x
    y := y
    battery := battery
    is_snorkeling := is_snorkeling
    throttle := throttle
    health := health }

/-- Iterated physics ticks: update_sub folded over a list of
(dt, now) pairs, first element applied first. -/
noncomputable def iterate_sub (cfg : Cfg) (s : SubState) : List (ℝ × ℝ) → SubState
  | [] => s
  | (dt, now) :: rest => iterate_sub cfg (update_sub cfg s dt now) rest

/-- Torpedo control mode: the string column control_mode with values
wire and free. -/
inductive Mode where
  | wire
  | free
deriving DecidableEq

/-- State of one TorpedoModel row together with the attributes the
Python code patches onto instances at runtime (start_x, start_y,
target_heading, pending_turn and the tick-local flags _expired,
_check_prox, _delete, modelled as fields that are none or false on a
fresh row). -/
structure TorpState where
  id : ℕ
  owner_id : ℕ
  parent_sub : ℕ
  x : ℝ
  y : ℝ
  depth : ℝ
  target_depth : Option ℝ
  heading : ℝ
  speed : ℝ
  created_at : Option ℝ
  control_mode : Mode
  wire_length : ℝ
  target_heading : Option ℝ
  pending_turn : Option ℝ
  start_x : Option ℝ
  start_y : Option ℝ
  expired : Bool
  check_prox : Bool
  del : Bool

/-- The expression float(t.wire_length or default_wire): the Python
or-form falls back to the default when wire_length is None or 0.0
(0.0 is falsy), modelled with the zero test. -/
noncomputable def effective_wire (cfg_default : ℝ) (wl : ℝ) : ℝ :=
  if wl = 0 then cfg_default else wl

/-- Launch point initialisation of update_torpedo: a torpedo without a
recorded start point stores its current position, and a missing
creation time is set to now inside the same branch. -/
noncomputable def torp_init_step (now : ℝ) (t : TorpState) : TorpState :=
  if t.start_x = none then
    { t with start_x := some t.x, start_y := some t.y,
             created_at := if t.created_at = none then some now else t.created_at }
  else t

/-- Wire control cutoff by geometry in update_torpedo: a wire-mode
torpedo whose looked-up parent lies farther than the wire length goes
free; a missing lookup result leaves the mode unchanged here (the
missing-parent case is handled by process_wire_links_mem).  parent_sub
is a non-empty string key in the source, hence always truthy in the
guard. -/
noncomputable def torp_wire_cutoff_step (cfg : Cfg) (parent : Option SubState)
    (t : TorpState) : TorpState :=
  if t.control_mode = Mode.wire then
    match parent with
    | some p =>
        if distance t.x t.y p.x p.y > effective_wire cfg.torpedo.default_wire t.wire_length then
          { t with control_mode := Mode.free }
        else t
    | none => t
  else t

/-- Heading guidance in update_torpedo: turn toward a set target
heading at the capped rate along the shortest direction, or consume a
one-shot pending relative turn. -/
noncomputable def torp_heading_step (cfg : Cfg) (dt : ℝ) (t : TorpState) : TorpState :=
  let turn_rate := radians cfg.torpedo.turn_rate_deg_s
  match t.target_heading with
  | some th =>
      let da := wrapAngle (th - t.heading)
      let step := clamp da (-(turn_rate * dt)) (turn_rate * dt)
      { t with heading := wrapAngle (t.heading + step) }
  | none => match t.pending_turn with
      | some pt =>
          let want := radians pt
          let step := clamp want (-(turn_rate * dt)) (turn_rate * dt)
          let rem := want - step
          { t with heading := wrapAngle (t.heading + step),
                   pending_turn := if |rem| > 0.0001 then some (degrees rem) else none }
      | none => t

/-- Depth guidance in update_torpedo: move toward a set target depth at
the capped rate, with no floor at the surface. -/
noncomputable def torp_depth_step (cfg : Cfg) (dt : ℝ) (t : TorpState) : TorpState :=
  match t.target_depth with
  | some td =>
      { t with depth := t.depth +
          clamp (td - t.depth) (-(cfg.torpedo.depth_rate_m_s * dt)) (cfg.torpedo.depth_rate_m_s * dt) }
  | none => t

/-- Position integration in update_torpedo at the torpedo speed along
the current heading (speed is read once at entry and never mutated in
between, so reading it here is equivalent). -/
noncomputable def torp_move_step (dt : ℝ) (t : TorpState) : TorpState :=
  { t with x := t.x + Real.cos t.heading * t.speed * dt,
           y := t.y + Real.sin t.heading * t.speed * dt }

/-- Range self-destruct and proximity-fuze arming flag in
update_torpedo: displacement from the launch point beyond max_range
marks the torpedo expired (the source returns early); otherwise the
check_prox flag is recomputed from the fuze radius and arming delay. -/
noncomputable def torp_range_step (cfg : Cfg) (now : ℝ) (t : TorpState) : TorpState :=
  let traveled := distance t.x t.y (t.start_x.getD 0) (t.start_y.getD 0)
  if traveled > cfg.torpedo.max_range then { t with expired := true }
  else { t with check_prox :=
          if cfg.torpedo.proximity_fuze_m > 0 ∧
              now - t.created_at.getD 0 ≥ cfg.torpedo.arming_delay_s then true else false }

/-- Translation of update_torpedo(t, dt, now): the section steps above
composed in source order.  The parent submarine lookup
SubModel.query.get(t.parent_sub) is passed in as an optional value. -/
noncomputable def update_torpedo (cfg : Cfg) (t : TorpState) (parent : Option SubState)
    (dt now : ℝ) : TorpState :=
  torp_range_step cfg now
    (torp_move_step dt
      (torp_depth_step cfg dt
        (torp_heading_step cfg dt
          (torp_wire_cutoff_step cfg parent
            (torp_init_step now t)))))

/-- One torpedo of the loop in process_wire_links_mem(torps, subs):
a wire-mode torpedo whose parent is absent from the snapshot, or lies
farther than the wire length, goes free. -/
noncomputable def wire_link_step (cfg : Cfg) (subs : List SubState) (t : TorpState) : TorpState :=
  if t.control_mode ≠ Mode.wire then t
  else match subs.find? (fun s => s.id = t.parent_sub) with
    | none => { t with control_mode := Mode.free }
    | some parent =>
        if distance t.x t.y parent.x parent.y >
            effective_wire cfg.torpedo.default_wire t.wire_length then
          { t with control_mode := Mode.free }
        else t

/-- Translation of process_wire_links_mem. -/
noncomputable def process_wire_links_mem (cfg : Cfg) (torps : List TorpState)
    (subs : List SubState) : List TorpState :=
  torps.map (wire_link_step cfg subs)

/-- Range class strings short, medium, long of the passive contact. -/
inductive RangeClass where
  | short
  | medium
  | long
deriving DecidableEq

/-- Passive contact payload (the fields of the contact event dict). -/
structure PassiveContact where
  observer_sub_id : ℕ
  bearing : ℝ
  bearing_relative : ℝ
  range_class : RangeClass
  snr : ℝ
  time : ℝ

/-- Events delivered to a user queue: the pending_events tuples and the
send_private calls, tagged with the receiving owner. -/
inductive WEvent where
  | explosion (owner : ℕ) (at_x at_y at_depth : ℝ) (torpedo_id : ℕ) (blast_radius : ℝ)
  | contact (owner : ℕ) (c : PassiveContact)
  | echo (owner : ℕ) (observer_sub_id : ℕ)
      (bearing bearing_relative range quality time : ℝ)
  | active_ping_detected (owner : ℕ) (observer_sub_id : ℕ) (bearing snr time : ℝ)

/-- Loop body of explode_torpedo_in_mem over the submarine list: a live
submarine within blast_radius (3-D distance) has its health zeroed and
one explosion event appended for its owner. -/
noncomputable def explode_aux (blast : ℝ) (t : TorpState) (etime : ℝ) :
    List SubState → List SubState × List WEvent
  | [] => ([], [])
  | s :: rest =>
      let r := explode_aux blast t etime rest
      if distance3d t.x t.y t.depth s.x s.y s.depth ≤ blast ∧ s.health > 0 then
        ({ s with health := 0 } :: r.1,
          WEvent.explosion s.owner_id t.x t.y t.depth t.id blast :: r.2)
      else (s :: r.1, r.2)

/-- Translation of explode_torpedo_in_mem(t, subs, pending_events):
returns the updated submarine list and the events appended.  The
payload time time.time() is passed as etime. -/
noncomputable def explode_torpedo_in_mem (cfg : Cfg) (t : TorpState) (subs : List SubState)
    (etime : ℝ) : List SubState × List WEvent :=
  explode_aux cfg.torpedo.blast_radius t etime subs

/-- The 3-D distance used by the detonate route: the root of squared
horizontal distance plus squared depth difference. -/
noncomputable def detonate_dist (t : TorpState) (s : SubState) : ℝ :=
  Real.sqrt (distance t.x t.y s.x s.y ^ 2 + |t.depth - s.depth| ^ 2)

/-- Pending active-sonar echo (the PENDING_PINGS dict entries). -/
structure Ping where
  eta : ℝ
  rng : ℝ
  bearing : ℝ
  echo_level : ℝ
  observer_sub_id : ℕ
  observer_user_id : ℕ
  observer_depth : ℝ
  target_depth : ℝ

/-- The 3-D range used by schedule_active_ping: root of squared
horizontal offsets plus squared depth difference. -/
noncomputable def rng3d (obs tgt : SubState) : ℝ :=
  Real.sqrt ((tgt.x - obs.x) ^ 2 + (tgt.y - obs.y) ^ 2 + (tgt.depth - obs.depth) ^ 2)

/-- The guard conditions of the schedule_active_ping loop, collected
as one predicate: not the observer itself, within the (capped) max
range, and within the beam half-width around the beam center. -/
noncomputable def ping_qualifies (_cfg : Cfg) (obs : SubState)
    (beam_deg max_range center : ℝ) (tgt : SubState) : Prop :=
  ¬(tgt.id = obs.id ∧ tgt.owner_id = obs.owner_id) ∧
  rng3d obs tgt ≤ max_range ∧
  |wrapAngle (atan2 (tgt.y - obs.y) (tgt.x - obs.x) - center)| ≤ radians (beam_deg / 2)

/-- The pending echo entry appended by schedule_active_ping for one
detected target: arrival time is now plus the acoustic round trip
2 (range / sound_speed). -/
noncomputable def mk_ping (cfg : Cfg) (obs : SubState) (now : ℝ) (tgt : SubState) : Ping :=
  { eta := now + 2 * (rng3d obs tgt / cfg.active.sound_speed)
    rng := rng3d obs tgt
    bearing := atan2 (tgt.y - obs.y) (tgt.x - obs.x)
    echo_level := 18 - rng3d obs tgt / 400 + (if tgt.is_snorkeling then 8 else 0)
    observer_sub_id := obs.id
    observer_user_id := obs.owner_id
    observer_depth := obs.depth
    target_depth := tgt.depth }

/-- Loop of schedule_active_ping over the candidate targets: skips the
observer itself, targets beyond max_range and targets outside the beam
half-width, and appends one pending echo per remaining target with
arrival time now + 2 (range / sound_speed). -/
noncomputable def schedule_active_ping_aux (cfg : Cfg) (obs : SubState)
    (beam_deg max_range now center_world : ℝ) : List SubState → List Ping
  | [] => []
  | tgt :: rest =>
      if tgt.id = obs.id ∧ tgt.owner_id = obs.owner_id then
        schedule_active_ping_aux cfg obs beam_deg max_range now center_world rest
      else
        let dx := tgt.x - obs.x
        let dy := tgt.y - obs.y
        let rng3d := Real.sqrt (dx ^ 2 + dy ^ 2 + (tgt.depth - obs.depth) ^ 2)
        if rng3d > max_range then
          schedule_active_ping_aux cfg obs beam_deg max_range now center_world rest
        else
          let brg_world := atan2 dy dx
          let rel := |wrapAngle (brg_world - center_world)|
          if rel > radians (beam_deg / 2) then
            schedule_active_ping_aux cfg obs beam_deg max_range now center_world rest
          else
            let echo_lvl := 18 - rng3d / 400 + (if tgt.is_snorkeling then 8 else 0)
            { eta := now + 2 * (rng3d / cfg.active.sound_speed)
              rng := rng3d
              bearing := brg_world
              echo_level := echo_lvl
              observer_sub_id := obs.id
              observer_user_id := obs.owner_id
              observer_depth := obs.depth
              target_depth := tgt.depth } ::
              schedule_active_ping_aux cfg obs beam_deg max_range now center_world rest

/-- Translation of schedule_active_ping(obs, beam_deg, max_range, now,
center_world): max_range is capped by the configuration, a missing beam
center defaults to the observer heading, and the SubModel.query.all()
read is passed in as the target list. -/
noncomputable def schedule_active_ping (cfg : Cfg) (obs : SubState)
    (beam_deg max_range now : ℝ) (center_world : Option ℝ)
    (targets : List SubState) : List Ping :=
  schedule_active_ping_aux cfg obs beam_deg (min max_range cfg.active.max_range) now
    (center_world.getD obs.heading) targets

/-- The echo event emitted for one due pending echo inside
process_active_pings: detection quality is a logistic function of the
echo level, the reported bearing and range add the uniform noise draws
(passed in as bdraw and rdraw), and the relative bearing uses the
looked-up observer heading (0 when the observer is gone). -/
noncomputable def mk_echo (now : ℝ) (lookup : ℕ → Option SubState)
    (bdraw rdraw : Ping → ℝ) (p : Ping) : WEvent :=
  let q := 1 / (1 + Real.exp (-(p.echo_level - 10) / 6))
  let est_brg := wrapAngle (p.bearing + bdraw p)
  let est_rng := max 1 (p.rng + rdraw p)
  let obs_heading := (lookup p.observer_sub_id).elim 0 (fun o => o.heading)
  WEvent.echo p.observer_user_id p.observer_sub_id est_brg
    (wrapAngle (est_brg - obs_heading)) est_rng q now

/-- Translation of process_active_pings(now): pending echoes whose
arrival time has passed are removed from the list and each emits one
echo event to its observer owner.  The uniform noise draws on bearing
and range are passed in as the functions bdraw and rdraw (the source
draws them within magnitudes shrinking in the detection quality q), and
the observer heading lookup SubModel.query.get is passed as lookup. -/
noncomputable def process_active_pings (_cfg : Cfg) (now : ℝ) (pings : List Ping)
    (lookup : ℕ → Option SubState) (bdraw rdraw : Ping → ℝ) :
    List Ping × List WEvent :=
  let due := pings.filter (fun p => p.eta ≤ now)
  if due = [] then (pings, [])
  else
    let remaining := pings.filter (fun p => p.eta > now)
    let events := due.map (mk_echo now lookup bdraw rdraw)
    (remaining, events)

/-- The passive signal level of schedule_passive_contacts:
base_snr plus speed noise plus snorkel bonus, minus twice the range in
kilometres, minus target depth over 200. -/
noncomputable def passive_snr (cfg : Cfg) (obs tgt : SubState) : ℝ :=
  cfg.passive.base_snr + cfg.passive.speed_noise_gain * (tgt.speed / cfg.sub.max_speed) +
      (if tgt.is_snorkeling then cfg.passive.snorkel_bonus else 0) -
    distance obs.x obs.y tgt.x tgt.y / 1000 * 2 - tgt.depth / 200

/-- The guard conditions of the passive detection loop, collected as
one predicate: not the observer row itself (same owner and same id),
within the active max range, and signal level at or above the floor of
5. -/
noncomputable def passive_qualifies (cfg : Cfg) (obs tgt : SubState) : Prop :=
  ¬(tgt.owner_id = obs.owner_id ∧ tgt.id = obs.id) ∧
  distance obs.x obs.y tgt.x tgt.y ≤ cfg.active.max_range ∧
  5 ≤ passive_snr cfg obs tgt

/-- The contact event emitted for the first qualifying target of one
observer: jittered bearing (draw passed in as jd), relative bearing,
range class band and signal level. -/
noncomputable def mk_contact (cfg : Cfg) (now : ℝ) (obs : SubState)
    (jd : SubState → ℝ) (tgt : SubState) : WEvent :=
  let rng := distance obs.x obs.y tgt.x tgt.y
  let brg := wrapAngle (atan2 (tgt.y - obs.y) (tgt.x - obs.x) + jd tgt)
  let rel := wrapAngle (brg - obs.heading)
  let rc := if rng < 1200 then RangeClass.short
            else if rng < 3000 then RangeClass.medium else RangeClass.long
  WEvent.contact obs.owner_id
    { observer_sub_id := obs.id, bearing := brg, bearing_relative := rel,
      range_class := rc, snr := passive_snr cfg obs tgt, time := now }

/-- The observer submarine named inside a passive contact event, used
to count detections per observer. -/
def contact_observer : WEvent → Option ℕ
  | WEvent.contact _ c => some c.observer_sub_id
  | _ => none

/-- Inner loop of schedule_passive_contacts for one observer: walks the
target list, skipping the observer itself (same id and same owner),
targets beyond the active max_range and targets whose signal level
falls below the floor of 5, and emits the contact event of the first
qualifying target.  The bearing jitter draw is passed in as jd (the
source draws it uniformly within a half-width depending on target
depth). -/
noncomputable def passive_scan_aux (cfg : Cfg) (now : ℝ) (obs : SubState)
    (jd : SubState → ℝ) : List SubState → Option WEvent
  | [] => none
  | tgt :: rest =>
      if tgt.owner_id = obs.owner_id ∧ tgt.id = obs.id then
        passive_scan_aux cfg now obs jd rest
      else
        let speed_noise := cfg.passive.speed_noise_gain * (tgt.speed / cfg.sub.max_speed)
        let snorkel_bonus := if tgt.is_snorkeling then cfg.passive.snorkel_bonus else 0
        let base := cfg.passive.base_snr + speed_noise + snorkel_bonus
        let rng := distance obs.x obs.y tgt.x tgt.y
        if rng > cfg.active.max_range then passive_scan_aux cfg now obs jd rest
        else
          let snr := base - rng / 1000 * 2 - tgt.depth / 200
          if snr < 5 then passive_scan_aux cfg now obs jd rest
          else
            let brg0 := atan2 (tgt.y - obs.y) (tgt.x - obs.x)
            let brg := wrapAngle (brg0 + jd tgt)
            let rel := wrapAngle (brg - obs.heading)
            let rc := if rng < 1200 then RangeClass.short
                      else if rng < 3000 then RangeClass.medium else RangeClass.long
            some (WEvent.contact obs.owner_id
              { observer_sub_id := obs.id, bearing := brg, bearing_relative := rel,
                range_class := rc, snr := snr, time := now })

/-- Translation of schedule_passive_contacts(now, subs, pending_events):
each observer whose randomized report interval (passed in as iv) has
elapsed since its last report contributes the event of its first
qualifying target, if any.  The write of obs.last_report on emission
only affects later ticks and is not part of the returned event list. -/
noncomputable def schedule_passive_contacts (cfg : Cfg) (now : ℝ)
    (iv : SubState → ℝ) (jd : SubState → SubState → ℝ)
    (subs : List SubState) : List WEvent :=
  subs.filterMap (fun obs =>
    if now - obs.last_report < iv obs then none
    else passive_scan_aux cfg now obs (jd obs) subs)

/-- Structured failure reasons of the command routes. -/
inductive Err where
  | notFound
  | torpedoNotFound
  | notYourTorpedo
  | wireLost
  | paramsRequired
  | tooDeepToSnorkel
  | noCharge
  | batteryTooLow
  | notEnoughBattery
  | pingRecharging
  | notAllowed
deriving DecidableEq

/-- Outcome of a command route: ok or a structured failure. -/
inductive Resp where
  | ok
  | err (e : Err)
deriving DecidableEq

/-- Authoritative world state seen by the command handlers: the sub and
torpedo tables and the pending echo list. -/
structure World where
  subs : List SubState
  torps : List TorpState
  pending_pings : List Ping

/-- Lookup SubModel.query.get. -/
def find_sub (w : World) (sid : ℕ) : Option SubState :=
  w.subs.find? (fun s => s.id = sid)

/-- Lookup TorpedoModel.query.get. -/
def find_torp (w : World) (tid : ℕ) : Option TorpState :=
  w.torps.find? (fun t => t.id = tid)

/-- Write back one submarine row by id. -/
def set_sub (w : World) (s : SubState) : World :=
  { w with subs := w.subs.map (fun x => if x.id = s.id then s else x) }

/-- Write back one torpedo row by id. -/
def set_torp (w : World) (t : TorpState) : World :=
  { w with torps := w.torps.map (fun x => if x.id = t.id then t else x) }

/-- Translation of the set_torp_depth route: not-found and ownership
are rejected; otherwise the target depth is stored unconditionally
(no wire-mode check and no range validation of the float). -/
def set_torp_depth (w : World) (user tid : ℕ) (new_depth : ℝ) : Resp × World :=
  match find_torp w tid with
  | none => (Resp.err Err.torpedoNotFound, w)
  | some t =>
      if t.owner_id ≠ user then (Resp.err Err.notYourTorpedo, w)
      else (Resp.ok, set_torp w { t with target_depth := some new_depth })

/-- Translation of the set_torp_heading route: not-found or foreign
ownership is rejected as not found, a torpedo no longer in wire mode is
rejected as wire lost, a request with neither heading_deg nor turn_deg
is rejected, and otherwise the heading moves by one rate-limited step
toward the request. -/
noncomputable def set_torp_heading (cfg : Cfg) (w : World) (user tid : ℕ) (dt : ℝ)
    (heading_deg turn_deg : Option ℝ) : Resp × World :=
  match find_torp w tid with
  | none => (Resp.err Err.notFound, w)
  | some t =>
      if t.owner_id ≠ user then (Resp.err Err.notFound, w)
      else if t.control_mode ≠ Mode.wire then (Resp.err Err.wireLost, w)
      else
        let max_turn := radians cfg.torpedo.turn_rate_deg_s * dt
        match heading_deg with
        | some hd =>
            let desired := radians hd
            let e := wrapAngle (desired - t.heading)
            (Resp.ok, set_torp w
              { t with heading := wrapAngle (t.heading + clamp e (-max_turn) max_turn) })
        | none => match turn_deg with
            | some td =>
                let turn := radians td
                (Resp.ok, set_torp w
                  { t with heading := wrapAngle (t.heading + clamp turn (-max_turn) max_turn) })
            | none => (Resp.err Err.paramsRequired, w)

/-- Translation of the snorkel route: toggling or setting the snorkel,
rejected when the submarine is deeper than the snorkel depth and the
request would turn the snorkel on.  do_toggle is toggle or the absence
of the on field. -/
noncomputable def snorkel (cfg : Cfg) (w : World) (user sid : ℕ) (toggle : Bool)
    (on_field : Option Bool) : Resp × World :=
  match find_sub w sid with
  | none => (Resp.err Err.notFound, w)
  | some s =>
      if s.owner_id ≠ user then (Resp.err Err.notFound, w)
      else
        let do_toggle := toggle || on_field.isNone
        if do_toggle then
          if !s.is_snorkeling then
            if s.depth > cfg.sub.snorkel_depth then (Resp.err Err.tooDeepToSnorkel, w)
            else (Resp.ok, set_sub w { s with is_snorkeling := true })
          else (Resp.ok, set_sub w { s with is_snorkeling := false })
        else
          let want_on := on_field.getD true
          if want_on then
            if s.depth > cfg.sub.snorkel_depth then (Resp.err Err.tooDeepToSnorkel, w)
            else (Resp.ok, set_sub w { s with is_snorkeling := true })
          else (Resp.ok, set_sub w { s with is_snorkeling := false })

/-- Translation of the ping route.  Validation in source order: lookup
and ownership, the minimum battery floor, the cost check, then the
battery deduction on the session object, then the cooldown check.  The
cooldown rejection issues no commit, so the request session is rolled
back at teardown and the in-session deduction is discarded: every
rejecting branch returns the unchanged world.  On success the pending
echoes of schedule_active_ping are appended and nearby third parties
receive immediate active_ping_detected notifications. -/
noncomputable def ping_cmd (cfg : Cfg) (w : World) (user sid : ℕ)
    (beam max_r center_rel_deg now : ℝ) : Resp × World × List WEvent :=
  match find_sub w sid with
  | none => (Resp.err Err.notFound, w, [])
  | some s =>
      if s.owner_id ≠ user then (Resp.err Err.notFound, w, [])
      else
        let pcfg := cfg.active_power
        let cost := pcfg.cost_per_ping + beam * pcfg.cost_per_degree
        if s.battery < pcfg.min_battery then (Resp.err Err.batteryTooLow, w, [])
        else if s.battery < cost then (Resp.err Err.notEnoughBattery, w, [])
        else
          let s1 := { s with battery := clamp (s.battery - cost) 0 100 }
          if (match s.ping_cooldown with | some c => now < c | none => False) then
            (Resp.err Err.pingRecharging, w, [])
          else
            let s2 := { s1 with ping_cooldown := some (now + 5) }
            let center_world := wrapAngle (s.heading + radians center_rel_deg)
            let new_pings := schedule_active_ping cfg s2 beam max_r now (some center_world) w.subs
            let notes := (w.subs.filter (fun o => o.id ≠ s.id)).filterMap (fun o =>
              let snr := 5 * (beam / 90) - distance s.x s.y o.x o.y / 800
              if snr > 1 then
                some (WEvent.active_ping_detected o.owner_id o.id
                  (atan2 (s.y - o.y) (s.x - o.x)) snr now)
              else none)
            (Resp.ok,
              { set_sub w s2 with pending_pings := w.pending_pings ++ new_pings },
              notes)

/-- Loop body of the detonate route over all submarines: every
submarine within blast radius (regardless of current health) has its
health zeroed and its owner notified. -/
noncomputable def detonate_aux (blast : ℝ) (t : TorpState) (etime : ℝ) :
    List SubState → List SubState × List WEvent
  | [] => ([], [])
  | s :: rest =>
      let r := detonate_aux blast t etime rest
      if detonate_dist t s ≤ blast then
        ({ s with health := 0 } :: r.1,
          WEvent.explosion s.owner_id t.x t.y t.depth t.id blast :: r.2)
      else (s :: r.1, r.2)

/-- Translation of the detonate route: not-found and foreign ownership
are rejected; otherwise every submarine within blast radius is zeroed
and notified, and the torpedo row is deleted unconditionally. -/
noncomputable def detonate_torp (cfg : Cfg) (w : World) (user tid : ℕ) (etime : ℝ) :
    Resp × World × List WEvent :=
  match find_torp w tid with
  | none => (Resp.err Err.torpedoNotFound, w, [])
  | some t =>
      if t.owner_id ≠ user then (Resp.err Err.notAllowed, w, [])
      else
        let r := detonate_aux cfg.torpedo.blast_radius t etime w.subs
        (Resp.ok,
          { w with subs := r.1, torps := w.torps.filter (fun x => ¬ x.id = tid) },
          r.2)

/-- Sequence of control commands and ticks used for the rudder claim:
each element sets the commanded rudder (the control route writes
rudder_cmd) and then runs one physics tick. -/
noncomputable def run_rudder (cfg : Cfg) (s : SubState) : List (ℝ × ℝ × ℝ) → SubState
  | [] => s
  | (cmd, dt, now) :: rest =>
      run_rudder cfg (update_sub cfg { s with rudder_cmd := cmd } dt now) rest

/-- Helper: a concrete submarine row with neutral values, used to build
the concrete instances below. -/
noncomputable def sampleSub : SubState where
  id := 1
  owner_id := 1
  x := 0
  y := 0
  depth := 100
  heading := 0
  pitch := 0
  rudder_angle := 0
  rudder_cmd := 0
  planes := 0
  throttle := 0
  target_depth := none
  speed := 0
  battery := 50
  is_snorkeling := false
  blow_active := false
  blow_charge := 1
  blow_end := 0
  health := 100
  passive_dir := 0
  last_report := 0
  ping_cooldown := none

/-- Helper: a concrete torpedo row used by the concrete instances
below. -/
noncomputable def sampleTorp : TorpState where
  id := 1
  owner_id := 1
  parent_sub := 1
  x := 0
  y := 0
  depth := 100
  target_depth := none
  heading := 0
  speed := 12
  created_at := some 0
  control_mode := Mode.wire
  wire_length := 600
  target_heading := none
  pending_turn := none
  start_x := some 0
  start_y := some 0
  expired := false
  check_prox := false
  del := false

theorem le_clamp (v lo hi : ℝ) : lo ≤ clamp v lo hi :=
  le_max_left _ _

theorem clamp_le {lo hi : ℝ} (v : ℝ) (h : lo ≤ hi) : clamp v lo hi ≤ hi :=
  max_le h (min_le_left _ _)

theorem clamp_mem {lo hi : ℝ} (v : ℝ) (h : lo ≤ hi) :
    lo ≤ clamp v lo hi ∧ clamp v lo hi ≤ hi :=
  ⟨le_clamp v lo hi, clamp_le v h⟩

theorem clamp_eq_of_mem {v lo hi : ℝ} (h1 : lo ≤ v) (h2 : v ≤ hi) :
    clamp v lo hi = v := by
  unfold clamp
  rw [min_eq_right h2, max_eq_right h1]

theorem abs_clamp_le {m : ℝ} (v : ℝ) (hm : 0 ≤ m) : |clamp v (-m) m| ≤ m :=
  abs_le.mpr (clamp_mem v (by linarith))

theorem clamp_lipschitz (lo hi x y : ℝ) :
    |clamp x lo hi - clamp y lo hi| ≤ |x - y| := by
  unfold clamp
  have h1 : |max lo (min hi x) - max lo (min hi y)| ≤ |min hi x - min hi y| := by
    rw [max_comm lo, max_comm lo]
    exact abs_max_sub_max_le_abs _ _ _
  have h2 : |min hi x - min hi y| ≤ |x - y| := by
    rw [min_comm hi x, min_comm hi y]
    have hx : min x hi = -max (-x) (-hi) := by
      rw [max_neg_neg, neg_neg]
    have hy : min y hi = -max (-y) (-hi) := by
      rw [max_neg_neg, neg_neg]
    rw [hx, hy]
    have h3 : |max (-x) (-hi) - max (-y) (-hi)| ≤ |(-x) - (-y)| :=
      abs_max_sub_max_le_abs _ _ _
    calc |(-max (-x) (-hi)) - (-max (-y) (-hi))|
        = |max (-y) (-hi) - max (-x) (-hi)| := by ring_nf
      _ = |max (-x) (-hi) - max (-y) (-hi)| := abs_sub_comm _ _
      _ ≤ |(-x) - (-y)| := h3
      _ = |x - y| := by rw [← abs_neg]; ring_nf
  exact h1.trans h2

theorem wrapAngle_mem (a : ℝ) : -π ≤ wrapAngle a ∧ wrapAngle a < π := by
  have h2 : (0:ℝ) < 2 * π := Real.two_pi_pos
  unfold wrapAngle
  constructor
  · have hf : ((⌊(a + π) / (2 * π)⌋ : ℤ) : ℝ) ≤ (a + π) / (2 * π) := Int.floor_le _
    have h1 : ((⌊(a + π) / (2 * π)⌋ : ℤ) : ℝ) * (2 * π) ≤ a + π := (le_div_iff₀ h2).mp hf
    nlinarith [h1]
  · have hf : (a + π) / (2 * π) < ((⌊(a + π) / (2 * π)⌋ : ℤ) : ℝ) + 1 :=
      Int.lt_floor_add_one _
    have h1 : a + π < (((⌊(a + π) / (2 * π)⌋ : ℤ) : ℝ) + 1) * (2 * π) := (div_lt_iff₀ h2).mp hf
    nlinarith [h1]

theorem wrapAngle_eq_self {a : ℝ} (h1 : -π ≤ a) (h2 : a < π) : wrapAngle a = a := by
  have hpos : (0:ℝ) < 2 * π := Real.two_pi_pos
  have hz : ⌊(a + π) / (2 * π)⌋ = 0 := by
    rw [Int.floor_eq_zero_iff]
    constructor
    · exact div_nonneg (by linarith) hpos.le
    · exact (div_lt_one hpos).mpr (by linarith)
  unfold wrapAngle
  rw [hz]
  push_cast
  ring

theorem wrapAngle_pi : wrapAngle π = -π := by
  have hne : (2:ℝ) * π ≠ 0 := ne_of_gt Real.two_pi_pos
  have h1 : (π + π) / (2 * π) = 1 := by
    field_simp
    ring
  unfold wrapAngle
  rw [h1]
  norm_num
  ring

theorem wrapAngle_zero : wrapAngle 0 = 0 :=
  wrapAngle_eq_self (by linarith [Real.pi_pos]) Real.pi_pos

theorem wrapAngle_sub_int_mul (a : ℝ) : ∃ k : ℤ, wrapAngle a = a - 2 * π * k :=
  ⟨⌊(a + π) / (2 * π)⌋, rfl⟩

theorem update_sub_battery_mem (cfg : Cfg) (s : SubState) (dt now : ℝ) :
    0 ≤ (update_sub cfg s dt now).battery ∧ (update_sub cfg s dt now).battery ≤ 100 := by
  unfold update_sub
  dsimp only
  split_ifs <;> exact clamp_mem _ (by norm_num)

theorem update_sub_depth_nonneg (cfg : Cfg) (s : SubState) (dt now : ℝ) :
    0 ≤ (update_sub cfg s dt now).depth := by
  unfold update_sub
  dsimp only
  exact le_max_left _ _

theorem update_sub_heading_mem (cfg : Cfg) (s : SubState) (dt now : ℝ) :
    -π ≤ (update_sub cfg s dt now).heading ∧ (update_sub cfg s dt now).heading < π := by
  unfold update_sub
  dsimp only
  exact wrapAngle_mem _

theorem crush_health_bound {h0 D crush dps dt : ℝ} (hh : 0 ≤ h0 ∧ h0 ≤ 100)
    (hD : D > crush) (hdps : 0 ≤ dps) (hdt : 0 ≤ dt) :
    0 ≤ max 0 (h0 - (D - crush) / 100 * dps * dt) ∧
    max 0 (h0 - (D - crush) / 100 * dps * dt) ≤ 100 := by
  refine ⟨le_max_left _ _, max_le (by norm_num) ?_⟩
  have hmul : 0 ≤ (D - crush) / 100 * dps * dt := by
    have h1 : 0 ≤ (D - crush) / 100 := div_nonneg (by linarith) (by norm_num)
    exact mul_nonneg (mul_nonneg h1 hdps) hdt
  linarith [hh.2]

theorem update_sub_health_mem (cfg : Cfg) (hdps : 0 ≤ cfg.sub.crush_dps_per_100m)
    (s : SubState) (dt now : ℝ) (hdt : 0 ≤ dt)
    (hh : 0 ≤ s.health ∧ s.health ≤ 100) :
    0 ≤ (update_sub cfg s dt now).health ∧ (update_sub cfg s dt now).health ≤ 100 := by
  unfold update_sub
  dsimp only
  split_ifs <;>
    first
      | exact crush_health_bound hh (by assumption) hdps hdt
      | exact hh

/-- Helper: radians of a nonnegative degree value is nonnegative. -/
theorem radians_nonneg {d : ℝ} (hd : 0 ≤ d) : 0 ≤ radians d := by
  unfold radians
  have := Real.pi_pos
  positivity

/-- C1, amended: for every submarine whose state satisfies the invariant
bounds and every sequence of physics ticks with dt ≥ 0, the resulting
state satisfies 0 ≤ battery ≤ 100, 0 ≤ health ≤ 100, depth ≥ 0 and
heading in the half-open interval from -pi included to pi excluded
(the original inclusion of pi and exclusion of -pi fails: wrap_angle
maps pi to -pi, see the counterexample). -/
theorem C1_tick_invariants (cfg : Cfg) (hdps : 0 ≤ cfg.sub.crush_dps_per_100m)
    (s : SubState) (ticks : List (ℝ × ℝ))
    (hdt : ∀ p ∈ ticks, 0 ≤ p.1)
    (hb : 0 ≤ s.battery ∧ s.battery ≤ 100)
    (hh : 0 ≤ s.health ∧ s.health ≤ 100)
    (hd : 0 ≤ s.depth)
    (hhd : -π ≤ s.heading ∧ s.heading < π) :
    (0 ≤ (iterate_sub cfg s ticks).battery ∧ (iterate_sub cfg s ticks).battery ≤ 100) ∧
    (0 ≤ (iterate_sub cfg s ticks).health ∧ (iterate_sub cfg s ticks).health ≤ 100) ∧
    0 ≤ (iterate_sub cfg s ticks).depth ∧
    (-π ≤ (iterate_sub cfg s ticks).heading ∧ (iterate_sub cfg s ticks).heading < π) := by
  induction ticks generalizing s with
  | nil => exact ⟨hb, hh, hd, hhd⟩
  | cons p rest ih =>
      obtain ⟨dt, now⟩ := p
      have h0 : 0 ≤ dt := hdt (dt, now) (List.mem_cons_self _ _)
      exact ih (update_sub cfg s dt now) (fun q hq => hdt q (List.mem_cons_of_mem _ hq))
        (update_sub_battery_mem cfg s dt now)
        (update_sub_health_mem cfg hdps s dt now h0 hh)
        (update_sub_depth_nonneg cfg s dt now)
        (update_sub_heading_mem cfg s dt now)

/-- C1 witness: the amended invariant instantiated at a concrete
submarine and one concrete tick. -/
theorem C1_tick_invariants_witness :
    (0 ≤ (iterate_sub defaultCfg sampleSub [(0.1, 0)]).battery ∧
      (iterate_sub defaultCfg sampleSub [(0.1, 0)]).battery ≤ 100) ∧
    (0 ≤ (iterate_sub defaultCfg sampleSub [(0.1, 0)]).health ∧
      (iterate_sub defaultCfg sampleSub [(0.1, 0)]).health ≤ 100) ∧
    0 ≤ (iterate_sub defaultCfg sampleSub [(0.1, 0)]).depth ∧
    (-π ≤ (iterate_sub defaultCfg sampleSub [(0.1, 0)]).heading ∧
      (iterate_sub defaultCfg sampleSub [(0.1, 0)]).heading < π) :=
  C1_tick_invariants defaultCfg (by norm_num [defaultCfg]) sampleSub [(0.1, 0)]
    (by intro p hp; simp at hp; subst hp; norm_num)
    (by norm_num [sampleSub])
    (by norm_num [sampleSub])
    (by norm_num [sampleSub])
    (by
      have h : sampleSub.heading = 0 := rfl
      rw [h]
      have := Real.pi_pos
      constructor <;> linarith)

/-- C1 counterexample: a submarine satisfying every bound of the claim,
with heading exactly pi (a member of the claimed interval), leaves the
claimed interval after a single tick with dt = 0: wrap_angle maps pi to
-pi, so the reachable headings form the interval from -pi included to
pi excluded, not the claimed one. -/
theorem C1_counterexample :
    (0 ≤ ({ sampleSub with heading := π } : SubState).battery ∧
      ({ sampleSub with heading := π } : SubState).battery ≤ 100) ∧
    (0 ≤ ({ sampleSub with heading := π } : SubState).health ∧
      ({ sampleSub with heading := π } : SubState).health ≤ 100) ∧
    0 ≤ ({ sampleSub with heading := π } : SubState).depth ∧
    (-π < ({ sampleSub with heading := π } : SubState).heading ∧
      ({ sampleSub with heading := π } : SubState).heading ≤ π) ∧
    ¬(-π < (update_sub defaultCfg { sampleSub with heading := π } 0 0).heading ∧
      (update_sub defaultCfg { sampleSub with heading := π } 0 0).heading ≤ π) := by
  have hpi : (update_sub defaultCfg { sampleSub with heading := π } 0 0).heading = -π := by
    unfold update_sub
    dsimp only [sampleSub]
    ring_nf
    exact wrapAngle_pi
  have hhead : ({ sampleSub with heading := π } : SubState).heading = π := rfl
  have hpip := Real.pi_pos
  refine ⟨⟨?_, ?_⟩, ⟨?_, ?_⟩, ?_, ⟨?_, ?_⟩, ?_⟩
  · norm_num [sampleSub]
  · norm_num [sampleSub]
  · norm_num [sampleSub]
  · norm_num [sampleSub]
  · norm_num [sampleSub]
  · rw [hhead]; linarith
  · rw [hhead]
  · rw [hpi]
    rintro ⟨h1, -⟩
    exact lt_irrefl _ h1

/-- C9: the commanded rudder is clamped to the interval from -1 to 1,
the physical rudder angle moves by at most the configured slew rate
times dt in one tick, its magnitude never exceeds the hardware limit
after a tick, and the limit is preserved over any sequence of rudder
commands and ticks. -/
theorem C9_rudder_limits (cfg : Cfg) (hM : 0 ≤ cfg.sub.max_rudder_deg)
    (hR : 0 ≤ cfg.sub.rudder_rate_deg_s) :
    (∀ s : SubState, ∀ dt now : ℝ,
      -1 ≤ (update_sub cfg s dt now).rudder_cmd ∧ (update_sub cfg s dt now).rudder_cmd ≤ 1) ∧
    (∀ s : SubState, ∀ dt now : ℝ, 0 ≤ dt →
      |s.rudder_angle| ≤ radians cfg.sub.max_rudder_deg →
      |(update_sub cfg s dt now).rudder_angle - s.rudder_angle| ≤
        radians cfg.sub.rudder_rate_deg_s * dt) ∧
    (∀ s : SubState, ∀ dt now : ℝ,
      |(update_sub cfg s dt now).rudder_angle| ≤ radians cfg.sub.max_rudder_deg) ∧
    (∀ s : SubState, ∀ cmds : List (ℝ × ℝ × ℝ),
      |s.rudder_angle| ≤ radians cfg.sub.max_rudder_deg →
      |(run_rudder cfg s cmds).rudder_angle| ≤ radians cfg.sub.max_rudder_deg) := by
  have hMrad : 0 ≤ radians cfg.sub.max_rudder_deg := radians_nonneg hM
  have h1 : ∀ s : SubState, ∀ dt now : ℝ,
      -1 ≤ (update_sub cfg s dt now).rudder_cmd ∧ (update_sub cfg s dt now).rudder_cmd ≤ 1 := by
    intro s dt now
    unfold update_sub
    dsimp only
    exact clamp_mem _ (by norm_num)
  have h3 : ∀ s : SubState, ∀ dt now : ℝ,
      |(update_sub cfg s dt now).rudder_angle| ≤ radians cfg.sub.max_rudder_deg := by
    intro s dt now
    unfold update_sub
    dsimp only
    exact abs_clamp_le _ hMrad
  have h2 : ∀ s : SubState, ∀ dt now : ℝ, 0 ≤ dt →
      |s.rudder_angle| ≤ radians cfg.sub.max_rudder_deg →
      |(update_sub cfg s dt now).rudder_angle - s.rudder_angle| ≤
        radians cfg.sub.rudder_rate_deg_s * dt := by
    intro s dt now hdt hA
    have hstep : 0 ≤ radians cfg.sub.rudder_rate_deg_s * dt :=
      mul_nonneg (radians_nonneg hR) hdt
    have ha : clamp s.rudder_angle (-(radians cfg.sub.max_rudder_deg))
        (radians cfg.sub.max_rudder_deg) = s.rudder_angle :=
      clamp_eq_of_mem (abs_le.mp hA).1 (abs_le.mp hA).2
    unfold update_sub
    dsimp only
    calc |clamp (s.rudder_angle +
            clamp (clamp s.rudder_cmd (-1) 1 * radians cfg.sub.max_rudder_deg - s.rudder_angle)
              (-(radians cfg.sub.rudder_rate_deg_s * dt)) (radians cfg.sub.rudder_rate_deg_s * dt))
            (-(radians cfg.sub.max_rudder_deg)) (radians cfg.sub.max_rudder_deg) -
          s.rudder_angle|
        = |clamp (s.rudder_angle +
            clamp (clamp s.rudder_cmd (-1) 1 * radians cfg.sub.max_rudder_deg - s.rudder_angle)
              (-(radians cfg.sub.rudder_rate_deg_s * dt)) (radians cfg.sub.rudder_rate_deg_s * dt))
            (-(radians cfg.sub.max_rudder_deg)) (radians cfg.sub.max_rudder_deg) -
          clamp s.rudder_angle (-(radians cfg.sub.max_rudder_deg))
            (radians cfg.sub.max_rudder_deg)| := by rw [ha]
      _ ≤ |(s.rudder_angle +
            clamp (clamp s.rudder_cmd (-1) 1 * radians cfg.sub.max_rudder_deg - s.rudder_angle)
              (-(radians cfg.sub.rudder_rate_deg_s * dt)) (radians cfg.sub.rudder_rate_deg_s * dt)) -
            s.rudder_angle| := clamp_lipschitz _ _ _ _
      _ = |clamp (clamp s.rudder_cmd (-1) 1 * radians cfg.sub.max_rudder_deg - s.rudder_angle)
            (-(radians cfg.sub.rudder_rate_deg_s * dt)) (radians cfg.sub.rudder_rate_deg_s * dt)| := by
          rw [add_sub_cancel_left]
      _ ≤ radians cfg.sub.rudder_rate_deg_s * dt := abs_clamp_le _ hstep
  refine ⟨h1, h2, h3, ?_⟩
  intro s cmds
  induction cmds generalizing s with
  | nil => intro h; exact h
  | cons c rest ih =>
      intro _
      obtain ⟨cmd, dt, now⟩ := c
      exact ih (update_sub cfg { s with rudder_cmd := cmd } dt now)
        (h3 { s with rudder_cmd := cmd } dt now)

/-- C9 witness: the rudder bounds instantiated at a concrete state and
a concrete run of full-deflection commands. -/
theorem C9_rudder_limits_witness :
    |(run_rudder defaultCfg sampleSub [(1, 0.1, 0), (-1, 0.1, 0.1), (1, 0.1, 0.2)]).rudder_angle| ≤
      radians defaultCfg.sub.max_rudder_deg ∧
    (-1 ≤ (update_sub defaultCfg sampleSub 0.1 0).rudder_cmd ∧
      (update_sub defaultCfg sampleSub 0.1 0).rudder_cmd ≤ 1) ∧
    |(update_sub defaultCfg sampleSub 0.1 0).rudder_angle - sampleSub.rudder_angle| ≤
      radians defaultCfg.sub.rudder_rate_deg_s * 0.1 := by
  have base := C9_rudder_limits defaultCfg (by norm_num [defaultCfg]) (by norm_num [defaultCfg])
  have hra : |sampleSub.rudder_angle| ≤ radians defaultCfg.sub.max_rudder_deg := by
    simp [sampleSub]
    exact radians_nonneg (by norm_num [defaultCfg])
  exact ⟨base.2.2.2 sampleSub _ hra, base.1 sampleSub 0.1 0, base.2.1 sampleSub 0.1 0 (by norm_num) hra⟩

theorem torp_init_step_mode (now : ℝ) (t : TorpState) :
    (torp_init_step now t).control_mode = t.control_mode := by
  unfold torp_init_step
  split <;> rfl

theorem torp_init_step_x (now : ℝ) (t : TorpState) : (torp_init_step now t).x = t.x := by
  unfold torp_init_step
  split <;> rfl

theorem torp_init_step_y (now : ℝ) (t : TorpState) : (torp_init_step now t).y = t.y := by
  unfold torp_init_step
  split <;> rfl

theorem torp_init_step_wire_length (now : ℝ) (t : TorpState) :
    (torp_init_step now t).wire_length = t.wire_length := by
  unfold torp_init_step
  split <;> rfl

theorem torp_heading_step_mode (cfg : Cfg) (dt : ℝ) (t : TorpState) :
    (torp_heading_step cfg dt t).control_mode = t.control_mode := by
  unfold torp_heading_step
  split
  · rfl
  · split <;> rfl

theorem torp_heading_step_depth (cfg : Cfg) (dt : ℝ) (t : TorpState) :
    (torp_heading_step cfg dt t).depth = t.depth := by
  unfold torp_heading_step
  split
  · rfl
  · split <;> rfl

theorem torp_heading_step_target_depth (cfg : Cfg) (dt : ℝ) (t : TorpState) :
    (torp_heading_step cfg dt t).target_depth = t.target_depth := by
  unfold torp_heading_step
  split
  · rfl
  · split <;> rfl

theorem torp_depth_step_mode (cfg : Cfg) (dt : ℝ) (t : TorpState) :
    (torp_depth_step cfg dt t).control_mode = t.control_mode := by
  unfold torp_depth_step
  split <;> rfl

theorem torp_move_step_mode (dt : ℝ) (t : TorpState) :
    (torp_move_step dt t).control_mode = t.control_mode := rfl

theorem torp_move_step_depth (dt : ℝ) (t : TorpState) :
    (torp_move_step dt t).depth = t.depth := rfl

theorem torp_range_step_mode (cfg : Cfg) (now : ℝ) (t : TorpState) :
    (torp_range_step cfg now t).control_mode = t.control_mode := by
  unfold torp_range_step
  dsimp only
  split <;> rfl

theorem torp_range_step_depth (cfg : Cfg) (now : ℝ) (t : TorpState) :
    (torp_range_step cfg now t).depth = t.depth := by
  unfold torp_range_step
  dsimp only
  split <;> rfl

/-- The control mode after update_torpedo is decided entirely by the
wire cutoff step (no later step touches it). -/
theorem update_torpedo_mode (cfg : Cfg) (t : TorpState) (parent : Option SubState)
    (dt now : ℝ) :
    (update_torpedo cfg t parent dt now).control_mode =
      (torp_wire_cutoff_step cfg parent (torp_init_step now t)).control_mode := by
  unfold update_torpedo
  rw [torp_range_step_mode, torp_move_step_mode, torp_depth_step_mode, torp_heading_step_mode]

theorem torp_wire_cutoff_step_free (cfg : Cfg) (parent : Option SubState) (t : TorpState)
    (h : t.control_mode = Mode.free) :
    (torp_wire_cutoff_step cfg parent t).control_mode = Mode.free := by
  unfold torp_wire_cutoff_step
  rw [if_neg (by simp [h])]
  exact h

theorem torp_wire_cutoff_step_none (cfg : Cfg) (t : TorpState) :
    (torp_wire_cutoff_step cfg none t).control_mode = t.control_mode := by
  unfold torp_wire_cutoff_step
  split <;> rfl

theorem torp_wire_cutoff_step_iff (cfg : Cfg) (p : SubState) (t : TorpState)
    (h : t.control_mode = Mode.wire) :
    ((torp_wire_cutoff_step cfg (some p) t).control_mode = Mode.free ↔
      distance t.x t.y p.x p.y > effective_wire cfg.torpedo.default_wire t.wire_length) := by
  unfold torp_wire_cutoff_step
  rw [if_pos h]
  dsimp only
  split_ifs with hd
  · simp [hd]
  · simp [h, hd]

theorem wire_link_step_free (cfg : Cfg) (subs : List SubState) (t : TorpState)
    (h : t.control_mode = Mode.free) :
    (wire_link_step cfg subs t).control_mode = Mode.free := by
  unfold wire_link_step
  rw [if_pos (by simp [h])]
  exact h

theorem wire_link_step_iff (cfg : Cfg) (subs : List SubState) (t : TorpState)
    (h : t.control_mode = Mode.wire) :
    ((wire_link_step cfg subs t).control_mode = Mode.free ↔
      (subs.find? (fun s => s.id = t.parent_sub) = none ∨
        ∃ p, subs.find? (fun s => s.id = t.parent_sub) = some p ∧
          distance t.x t.y p.x p.y > effective_wire cfg.torpedo.default_wire t.wire_length)) := by
  unfold wire_link_step
  rw [if_neg (by simp [h])]
  cases hf : subs.find? (fun s => s.id = t.parent_sub) with
  | none => simp [hf]
  | some p =>
      dsimp only
      split_ifs with hd
      · simp [hf, hd]
      · simp [h, hf, hd]

/-- Elements of a torpedo list with pairwise distinct ids are equal
when their ids agree. -/
theorem torp_id_inj {l : List TorpState} (hnd : (l.map TorpState.id).Nodup)
    {a b : TorpState} (ha : a ∈ l) (hb : b ∈ l) (hab : a.id = b.id) : a = b :=
  List.inj_on_of_nodup_map hnd ha hb hab

/-- C2: the torpedo control mode goes from wire to free exactly when
the planar distance to the parent first exceeds the wire length (wire
cutoff inside update_torpedo, given a successful parent lookup) or the
parent is gone from the snapshot (process_wire_links_mem), and free is
absorbing: no tick step and no guidance command ever restores wire
mode. -/
theorem C2_wire_to_free (cfg : Cfg) :
    (∀ t : TorpState, ∀ parent : Option SubState, ∀ dt now : ℝ,
      t.control_mode = Mode.free →
      (update_torpedo cfg t parent dt now).control_mode = Mode.free) ∧
    (∀ subs : List SubState, ∀ t : TorpState,
      t.control_mode = Mode.free →
      (wire_link_step cfg subs t).control_mode = Mode.free) ∧
    (∀ t : TorpState, ∀ p : SubState, ∀ dt now : ℝ,
      t.control_mode = Mode.wire →
      ((update_torpedo cfg t (some p) dt now).control_mode = Mode.free ↔
        distance t.x t.y p.x p.y > effective_wire cfg.torpedo.default_wire t.wire_length)) ∧
    (∀ subs : List SubState, ∀ t : TorpState,
      t.control_mode = Mode.wire →
      ((wire_link_step cfg subs t).control_mode = Mode.free ↔
        (subs.find? (fun s => s.id = t.parent_sub) = none ∨
          ∃ p, subs.find? (fun s => s.id = t.parent_sub) = some p ∧
            distance t.x t.y p.x p.y > effective_wire cfg.torpedo.default_wire t.wire_length))) ∧
    (∀ w : World, ∀ user tid : ℕ, ∀ d : ℝ,
      (w.torps.map TorpState.id).Nodup →
      ((set_torp_depth w user tid d).2.torps.map TorpState.control_mode) =
        w.torps.map TorpState.control_mode) ∧
    (∀ w : World, ∀ user tid : ℕ, ∀ dt : ℝ, ∀ hdg trn : Option ℝ,
      (w.torps.map TorpState.id).Nodup →
      ((set_torp_heading cfg w user tid dt hdg trn).2.torps.map TorpState.control_mode) =
        w.torps.map TorpState.control_mode) := by
  have habs : ∀ t : TorpState, ∀ parent : Option SubState, ∀ dt now : ℝ,
      t.control_mode = Mode.free →
      (update_torpedo cfg t parent dt now).control_mode = Mode.free := by
    intro t parent dt now h
    rw [update_torpedo_mode]
    exact torp_wire_cutoff_step_free cfg parent _ ((torp_init_step_mode now t).trans h)
  have hset : ∀ w : World, ∀ t t' : TorpState,
      (w.torps.map TorpState.id).Nodup → t ∈ w.torps → t'.id = t.id →
      t'.control_mode = t.control_mode →
      ((set_torp w t').torps.map TorpState.control_mode) = w.torps.map TorpState.control_mode := by
    intro w t t' hnd hmem hid hmode
    unfold set_torp
    dsimp only
    rw [List.map_map]
    apply List.map_congr_left
    intro x hx
    dsimp only [Function.comp]
    split_ifs with hxy
    · have hxt : x = t := torp_id_inj hnd hx hmem (by rw [hxy, hid])
      rw [hmode, hxt]
    · rfl
  refine ⟨habs, ?_, ?_, ?_, ?_, ?_⟩
  · exact fun subs t h => wire_link_step_free cfg subs t h
  · intro t p dt now h
    rw [update_torpedo_mode]
    have h1 : (torp_init_step now t).control_mode = Mode.wire :=
      (torp_init_step_mode now t).trans h
    rw [torp_wire_cutoff_step_iff cfg p _ h1, torp_init_step_x, torp_init_step_y,
      torp_init_step_wire_length]
  · exact fun subs t h => wire_link_step_iff cfg subs t h
  · intro w user tid d hnd
    unfold set_torp_depth
    cases hf : find_torp w tid with
    | none => rfl
    | some t =>
        dsimp only
        split_ifs with hown
        · rfl
        · exact hset w t _ hnd (List.mem_of_find?_eq_some hf) rfl rfl
  · intro w user tid dt hdg trn hnd
    unfold set_torp_heading
    cases hf : find_torp w tid with
    | none => rfl
    | some t =>
        dsimp only
        split_ifs with hown hw
        · rfl
        · rfl
        · cases hdg with
          | some hv =>
              exact hset w t _ hnd (List.mem_of_find?_eq_some hf) rfl rfl
          | none =>
              cases trn with
              | some tv =>
                  exact hset w t _ hnd (List.mem_of_find?_eq_some hf) rfl rfl
              | none => rfl

/-- C2 witness: the mode facts instantiated at a concrete torpedo, a
concrete empty snapshot (parent gone) and a concrete depth command. -/
theorem C2_wire_to_free_witness :
    (update_torpedo defaultCfg { sampleTorp with control_mode := Mode.free } none 0.1 0).control_mode
      = Mode.free ∧
    (wire_link_step defaultCfg [] { sampleTorp with control_mode := Mode.free }).control_mode
      = Mode.free ∧
    (wire_link_step defaultCfg [] sampleTorp).control_mode = Mode.free ∧
    ((set_torp_depth ⟨[], [sampleTorp], []⟩ 1 1 50).2.torps.map TorpState.control_mode =
      [sampleTorp].map TorpState.control_mode) := by
  have base := C2_wire_to_free defaultCfg
  refine ⟨base.1 _ none 0.1 0 rfl, base.2.1 [] _ rfl, ?_, ?_⟩
  · exact (base.2.2.2.1 [] sampleTorp rfl).mpr (Or.inl rfl)
  · exact base.2.2.2.2.1 ⟨[], [sampleTorp], []⟩ 1 1 50 (by simp)

/-- C10: the set-torpedo-depth command accepts a negative target depth
with no range validation, update_torpedo then drives the depth below
zero (no floor at the surface), while update_sub floors submarine depth
at zero. -/
theorem C10_torpedo_depth_unbounded :
    (set_torp_depth ⟨[], [{ sampleTorp with depth := 1 }], []⟩ 1 1 (-10)).1 = Resp.ok ∧
    (find_torp (set_torp_depth ⟨[], [{ sampleTorp with depth := 1 }], []⟩ 1 1 (-10)).2 1 =
      some { sampleTorp with depth := 1, target_depth := some (-10) } ∧
      (update_torpedo defaultCfg { sampleTorp with depth := 1, target_depth := some (-10) }
        none 0.25 0).depth < 0) ∧
    (∀ cfg : Cfg, ∀ s : SubState, ∀ dt now : ℝ, 0 ≤ (update_sub cfg s dt now).depth) := by
  refine ⟨?_, ⟨?_, ?_⟩, fun cfg s dt now => update_sub_depth_nonneg cfg s dt now⟩
  · simp [set_torp_depth, find_torp, sampleTorp]
  · simp [set_torp_depth, find_torp, set_torp, sampleTorp]
  · rw [show (update_torpedo defaultCfg { sampleTorp with depth := 1, target_depth := some (-10) }
        none 0.25 0).depth =
        (torp_depth_step defaultCfg 0.25 (torp_heading_step defaultCfg 0.25
          (torp_wire_cutoff_step defaultCfg none
            (torp_init_step 0 { sampleTorp with depth := 1, target_depth := some (-10) })))).depth
      from by unfold update_torpedo; rw [torp_range_step_depth, torp_move_step_depth]]
    norm_num [torp_depth_step, torp_heading_step, torp_wire_cutoff_step, torp_init_step,
      sampleTorp, clamp, defaultCfg]

theorem detonate_aux_fst (blast : ℝ) (t : TorpState) (etime : ℝ) (l : List SubState) :
    (detonate_aux blast t etime l).1 =
      l.map (fun s => if detonate_dist t s ≤ blast then { s with health := 0 } else s) := by
  induction l with
  | nil => rfl
  | cons s rest ih =>
      by_cases h : detonate_dist t s ≤ blast
      · simp [detonate_aux, h, ih]
      · simp [detonate_aux, h, ih]

theorem detonate_aux_snd (blast : ℝ) (t : TorpState) (etime : ℝ) (l : List SubState) :
    (detonate_aux blast t etime l).2 =
      (l.filter (fun s => detonate_dist t s ≤ blast)).map
        (fun s => WEvent.explosion s.owner_id t.x t.y t.depth t.id blast) := by
  induction l with
  | nil => rfl
  | cons s rest ih =>
      by_cases h : detonate_dist t s ≤ blast
      · simp [detonate_aux, List.filter_cons, h, ih]
      · simp [detonate_aux, List.filter_cons, h, ih]

theorem explode_aux_fst (blast : ℝ) (t : TorpState) (etime : ℝ) (l : List SubState) :
    (explode_aux blast t etime l).1 =
      l.map (fun s =>
        if distance3d t.x t.y t.depth s.x s.y s.depth ≤ blast ∧ s.health > 0 then
          { s with health := 0 } else s) := by
  induction l with
  | nil => rfl
  | cons s rest ih =>
      by_cases h : distance3d t.x t.y t.depth s.x s.y s.depth ≤ blast ∧ s.health > 0
      · simp [explode_aux, h, ih]
      · simp [explode_aux, h, ih]

theorem explode_aux_snd (blast : ℝ) (t : TorpState) (etime : ℝ) (l : List SubState) :
    (explode_aux blast t etime l).2 =
      (l.filter (fun s =>
        distance3d t.x t.y t.depth s.x s.y s.depth ≤ blast ∧ s.health > 0)).map
        (fun s => WEvent.explosion s.owner_id t.x t.y t.depth t.id blast) := by
  induction l with
  | nil => rfl
  | cons s rest ih =>
      by_cases h : distance3d t.x t.y t.depth s.x s.y s.depth ≤ blast ∧ s.health > 0
      · simp [explode_aux, List.filter_cons, h, ih]
      · simp [explode_aux, List.filter_cons, h, ih]

/-- C3: detonating a torpedo on command zeroes the health of every
submarine within blast radius (in particular every live one), harms no
submarine farther than the blast radius, emits exactly one explosion
notification per submarine within radius to its owner, and always
deletes the detonating torpedo afterward; the in-tick resolver
explode_torpedo_in_mem does the same for the live submarines within
radius of the 3-D distance. -/
theorem C3_detonation (cfg : Cfg) (w : World) (user tid : ℕ) (etime : ℝ) (t : TorpState)
    (hfind : find_torp w tid = some t) (hown : t.owner_id = user) :
    (detonate_torp cfg w user tid etime).1 = Resp.ok ∧
    (detonate_torp cfg w user tid etime).2.1.subs =
      w.subs.map (fun s =>
        if detonate_dist t s ≤ cfg.torpedo.blast_radius then { s with health := 0 } else s) ∧
    (∀ s ∈ w.subs, detonate_dist t s ≤ cfg.torpedo.blast_radius →
      ({ s with health := 0 } : SubState) ∈ (detonate_torp cfg w user tid etime).2.1.subs) ∧
    (∀ s ∈ w.subs, ¬ detonate_dist t s ≤ cfg.torpedo.blast_radius →
      s ∈ (detonate_torp cfg w user tid etime).2.1.subs) ∧
    (detonate_torp cfg w user tid etime).2.2 =
      (w.subs.filter (fun s => detonate_dist t s ≤ cfg.torpedo.blast_radius)).map
        (fun s => WEvent.explosion s.owner_id t.x t.y t.depth t.id cfg.torpedo.blast_radius) ∧
    (detonate_torp cfg w user tid etime).2.1.torps =
      w.torps.filter (fun x => ¬ x.id = tid) ∧
    (∀ t' : TorpState, ∀ subs : List SubState, ∀ et : ℝ,
      (explode_torpedo_in_mem cfg t' subs et).1 =
        subs.map (fun s =>
          if distance3d t'.x t'.y t'.depth s.x s.y s.depth ≤ cfg.torpedo.blast_radius ∧
              s.health > 0 then
            { s with health := 0 } else s) ∧
      (explode_torpedo_in_mem cfg t' subs et).2 =
        (subs.filter (fun s =>
          distance3d t'.x t'.y t'.depth s.x s.y s.depth ≤ cfg.torpedo.blast_radius ∧
            s.health > 0)).map
          (fun s => WEvent.explosion s.owner_id t'.x t'.y t'.depth t'.id
            cfg.torpedo.blast_radius)) := by
  have hred : detonate_torp cfg w user tid etime =
      (Resp.ok,
        { w with subs := (detonate_aux cfg.torpedo.blast_radius t etime w.subs).1,
                 torps := w.torps.filter (fun x => ¬ x.id = tid) },
        (detonate_aux cfg.torpedo.blast_radius t etime w.subs).2) := by
    unfold detonate_torp
    rw [hfind]
    dsimp only
    rw [if_neg (by simp [hown])]
  rw [hred]
  dsimp only
  refine ⟨rfl, detonate_aux_fst _ _ _ _, ?_, ?_, detonate_aux_snd _ _ _ _, rfl, ?_⟩
  · intro s hs hd
    rw [detonate_aux_fst]
    exact List.mem_map.mpr ⟨s, hs, by rw [if_pos hd]⟩
  · intro s hs hd
    rw [detonate_aux_fst]
    exact List.mem_map.mpr ⟨s, hs, by rw [if_neg hd]⟩
  · intro t' subs et
    exact ⟨explode_aux_fst _ _ _ _, explode_aux_snd _ _ _ _⟩

/-- C3 witness: the detonation facts instantiated at a concrete world
holding one submarine and the owned torpedo. -/
theorem C3_detonation_witness :
    (detonate_torp defaultCfg ⟨[sampleSub], [sampleTorp], []⟩ 1 1 0).1 = Resp.ok ∧
    (detonate_torp defaultCfg ⟨[sampleSub], [sampleTorp], []⟩ 1 1 0).2.1.torps =
      ([sampleTorp].filter (fun x => ¬ x.id = 1)) := by
  have base := C3_detonation defaultCfg ⟨[sampleSub], [sampleTorp], []⟩ 1 1 0 sampleTorp
    (by simp [find_torp, sampleTorp]) rfl
  exact ⟨base.1, base.2.2.2.2.2.1⟩

theorem schedule_active_ping_aux_spec (cfg : Cfg) (obs : SubState)
    (beam mr now c : ℝ) (l : List SubState) :
    schedule_active_ping_aux cfg obs beam mr now c l =
      (l.filter (fun tgt => ping_qualifies cfg obs beam mr c tgt)).map
        (mk_ping cfg obs now) := by
  induction l with
  | nil => rfl
  | cons tgt rest ih =>
      by_cases h1 : tgt.id = obs.id ∧ tgt.owner_id = obs.owner_id
      · have hq : ¬ ping_qualifies cfg obs beam mr c tgt := by
          simp [ping_qualifies, h1]
        simp [schedule_active_ping_aux, h1, hq, ih, List.filter_cons]
      · by_cases h2 : rng3d obs tgt > mr
        · have hq : ¬ ping_qualifies cfg obs beam mr c tgt := by
            rintro ⟨-, hle, -⟩
            exact absurd hle (not_le.mpr h2)
          have h2' : Real.sqrt ((tgt.x - obs.x) ^ 2 + (tgt.y - obs.y) ^ 2 +
              (tgt.depth - obs.depth) ^ 2) > mr := h2
          simp [schedule_active_ping_aux, h1, h2', hq, ih, List.filter_cons]
        · by_cases h3 : |wrapAngle (atan2 (tgt.y - obs.y) (tgt.x - obs.x) - c)| >
              radians (beam / 2)
          · have hq : ¬ ping_qualifies cfg obs beam mr c tgt := by
              rintro ⟨-, -, hle⟩
              exact absurd hle (not_le.mpr h3)
            have h2' : ¬ Real.sqrt ((tgt.x - obs.x) ^ 2 + (tgt.y - obs.y) ^ 2 +
                (tgt.depth - obs.depth) ^ 2) > mr := h2
            simp [schedule_active_ping_aux, h1, h2', h3, hq, ih, List.filter_cons]
          · have hq : ping_qualifies cfg obs beam mr c tgt := ⟨h1, not_lt.mp h2, not_lt.mp h3⟩
            have h2' : ¬ Real.sqrt ((tgt.x - obs.x) ^ 2 + (tgt.y - obs.y) ^ 2 +
                (tgt.depth - obs.depth) ^ 2) > mr := h2
            simp [schedule_active_ping_aux, h1, h2', h3, hq, ih, List.filter_cons,
              mk_ping, rng3d]

theorem schedule_active_ping_spec (cfg : Cfg) (obs : SubState) (beam mr now : ℝ)
    (cw : Option ℝ) (targets : List SubState) :
    schedule_active_ping cfg obs beam mr now cw targets =
      (targets.filter (fun tgt =>
        ping_qualifies cfg obs beam (min mr cfg.active.max_range) (cw.getD obs.heading) tgt)).map
        (mk_ping cfg obs now) := by
  unfold schedule_active_ping
  exact schedule_active_ping_aux_spec cfg obs beam _ now _ targets

theorem process_active_pings_spec (cfg : Cfg) (now : ℝ) (pings : List Ping)
    (lookup : ℕ → Option SubState) (bd rd : Ping → ℝ) :
    (process_active_pings cfg now pings lookup bd rd).1 =
      pings.filter (fun p => p.eta > now) ∧
    (process_active_pings cfg now pings lookup bd rd).2 =
      (pings.filter (fun p => p.eta ≤ now)).map (mk_echo now lookup bd rd) := by
  unfold process_active_pings
  dsimp only
  split_ifs with h
  · constructor
    · have hall : ∀ p ∈ pings, decide (p.eta > now) = true := by
        intro p hp
        have hnot : ¬ (p.eta ≤ now) := by
          intro hle
          have hmem : p ∈ pings.filter (fun p => p.eta ≤ now) :=
            List.mem_filter.mpr ⟨hp, by simp [hle]⟩
          rw [h] at hmem
          exact absurd hmem (List.not_mem_nil p)
        simp [lt_of_not_le hnot]
      exact (List.filter_eq_self.mpr hall).symm
    · rw [h]
      rfl
  · exact ⟨rfl, rfl⟩

/-- C4: an issued active ping schedules exactly one pending echo per
detected target (the qualifying targets of the beam and range gates),
each with arrival time now + 2 (range / sound_speed); the resolution
step removes exactly the entries whose arrival time has passed and
emits exactly one echo event per removed entry to the owner of the
observer, so no echo is delivered before its arrival time at tick
granularity and each entry is discarded once resolved. -/
theorem C4_active_ping_echo (cfg : Cfg) (obs : SubState) (beam mr now : ℝ)
    (cw : Option ℝ) (targets : List SubState) (pings : List Ping) (rnow : ℝ)
    (lookup : ℕ → Option SubState) (bd rd : Ping → ℝ) :
    (schedule_active_ping cfg obs beam mr now cw targets =
      (targets.filter (fun tgt =>
        ping_qualifies cfg obs beam (min mr cfg.active.max_range) (cw.getD obs.heading) tgt)).map
        (mk_ping cfg obs now)) ∧
    (∀ tgt : SubState, (mk_ping cfg obs now tgt).eta =
      now + 2 * ((mk_ping cfg obs now tgt).rng / cfg.active.sound_speed)) ∧
    ((process_active_pings cfg rnow pings lookup bd rd).1 =
      pings.filter (fun p => p.eta > rnow)) ∧
    ((process_active_pings cfg rnow pings lookup bd rd).2 =
      (pings.filter (fun p => p.eta ≤ rnow)).map (mk_echo rnow lookup bd rd)) ∧
    (∀ p : Ping, ∃ brg rel rng q : ℝ,
      mk_echo rnow lookup bd rd p =
        WEvent.echo p.observer_user_id p.observer_sub_id brg rel rng q rnow) :=
  ⟨schedule_active_ping_spec cfg obs beam mr now cw targets,
    fun _ => rfl,
    (process_active_pings_spec cfg rnow pings lookup bd rd).1,
    (process_active_pings_spec cfg rnow pings lookup bd rd).2,
    fun _ => ⟨_, _, _, _, rfl⟩⟩

theorem passive_scan_aux_spec (cfg : Cfg) (now : ℝ) (obs : SubState)
    (jd : SubState → ℝ) (l : List SubState) :
    passive_scan_aux cfg now obs jd l =
      (l.find? (fun tgt => passive_qualifies cfg obs tgt)).map (mk_contact cfg now obs jd) := by
  induction l with
  | nil => rfl
  | cons tgt rest ih =>
      by_cases h1 : tgt.owner_id = obs.owner_id ∧ tgt.id = obs.id
      · have hq : ¬ passive_qualifies cfg obs tgt := by simp [passive_qualifies, h1]
        simp only [passive_scan_aux]
        rw [if_pos h1, List.find?_cons_of_neg _ (by simp [hq])]
        exact ih
      · by_cases h2 : distance obs.x obs.y tgt.x tgt.y > cfg.active.max_range
        · have hq : ¬ passive_qualifies cfg obs tgt := by
            rintro ⟨-, hle, -⟩
            exact absurd hle (not_le.mpr h2)
          simp only [passive_scan_aux]
          rw [if_neg h1]
          rw [if_pos h2, List.find?_cons_of_neg _ (by simp [hq])]
          exact ih
        · by_cases h3 : passive_snr cfg obs tgt < 5
          · have hq : ¬ passive_qualifies cfg obs tgt := by
              rintro ⟨-, -, hle⟩
              exact absurd hle (not_le.mpr h3)
            have h3' : cfg.passive.base_snr +
                cfg.passive.speed_noise_gain * (tgt.speed / cfg.sub.max_speed) +
                (if tgt.is_snorkeling then cfg.passive.snorkel_bonus else 0) -
                distance obs.x obs.y tgt.x tgt.y / 1000 * 2 - tgt.depth / 200 < 5 := h3
            simp only [passive_scan_aux]
            rw [if_neg h1]
            rw [if_neg h2, if_pos h3', List.find?_cons_of_neg _ (by simp [hq])]
            exact ih
          · have hq : passive_qualifies cfg obs tgt := ⟨h1, not_lt.mp h2, not_lt.mp h3⟩
            have h3' : ¬ (cfg.passive.base_snr +
                cfg.passive.speed_noise_gain * (tgt.speed / cfg.sub.max_speed) +
                (if tgt.is_snorkeling then cfg.passive.snorkel_bonus else 0) -
                distance obs.x obs.y tgt.x tgt.y / 1000 * 2 - tgt.depth / 200 < 5) := h3
            simp only [passive_scan_aux]
            rw [if_neg h1]
            rw [if_neg h2, if_neg h3', List.find?_cons_of_pos _ (by simp [hq])]
            rfl

theorem filterMap_contact_count (f : SubState → Option WEvent)
    (hf : ∀ o e, f o = some e → contact_observer e = some o.id) :
    ∀ l : List SubState, ∀ n : ℕ,
      ((l.filterMap f).filter (fun e => contact_observer e = some n)).length ≤
        (l.map SubState.id).count n := by
  intro l
  induction l with
  | nil => intro n; simp
  | cons o rest ih =>
      intro n
      rw [List.filterMap_cons]
      cases hfo : f o with
      | none =>
          simp only [List.map_cons, List.count_cons]
          exact (ih n).trans (Nat.le_add_right _ _)
      | some e =>
          have he := hf o e hfo
          rw [List.filter_cons]
          by_cases hn : o.id = n
          · rw [if_pos (by simp [he, hn])]
            subst hn
            have h' := ih o.id
            simp only [List.length_cons, List.map_cons, List.count_cons_self]
            omega
          · rw [if_neg (by simp [he, hn])]
            have h' := ih n
            rw [List.map_cons, List.count_cons_of_ne (Ne.symm hn)]
            exact h'

theorem passive_per_observer_le_one (cfg : Cfg) (now : ℝ) (iv : SubState → ℝ)
    (jd : SubState → SubState → ℝ) (subs : List SubState)
    (hnd : (subs.map SubState.id).Nodup) (n : ℕ) :
    ((schedule_passive_contacts cfg now iv jd subs).filter
      (fun e => contact_observer e = some n)).length ≤ 1 := by
  unfold schedule_passive_contacts
  have hf : ∀ o e,
      (if now - o.last_report < iv o then none
        else passive_scan_aux cfg now o (jd o) subs) = some e →
      contact_observer e = some o.id := by
    intro o e he
    by_cases hgate : now - o.last_report < iv o
    · rw [if_pos hgate] at he
      exact absurd he (by simp)
    · rw [if_neg hgate, passive_scan_aux_spec] at he
      obtain ⟨tgt, -, heq⟩ := Option.map_eq_some'.mp he
      rw [← heq]
      rfl
  exact (filterMap_contact_count _ hf subs n).trans
    (List.nodup_iff_count_le_one.mp hnd n)

/-- C5, amended: the passive detection loop of one observer emits the
contact of the first qualifying target in snapshot order; a qualifying
target is never the observer row itself (same owner and same id — but
other vehicles of the same owner are not excluded, see the
counterexample), lies within the active max range, and has signal
level base + speed_noise_gain (speed / max_speed) + snorkel_bonus -
2 range_km - depth / 200 at or above the floor of 5; and with pairwise
distinct submarine ids at most one contact event per observer is
emitted per tick. -/
theorem C5_passive_detection (cfg : Cfg) (now : ℝ) (iv : SubState → ℝ)
    (jd : SubState → SubState → ℝ) (obs : SubState) (subs : List SubState) :
    (∀ l : List SubState, passive_scan_aux cfg now obs (jd obs) l =
      (l.find? (fun tgt => passive_qualifies cfg obs tgt)).map (mk_contact cfg now obs (jd obs))) ∧
    (∀ l : List SubState, ∀ e : WEvent,
      passive_scan_aux cfg now obs (jd obs) l = some e →
      ∃ tgt ∈ l, passive_qualifies cfg obs tgt ∧
        ¬(tgt.owner_id = obs.owner_id ∧ tgt.id = obs.id) ∧
        5 ≤ passive_snr cfg obs tgt ∧
        e = mk_contact cfg now obs (jd obs) tgt) ∧
    ((subs.map SubState.id).Nodup →
      ((schedule_passive_contacts cfg now iv jd subs).filter
        (fun e => contact_observer e = some obs.id)).length ≤ 1) := by
  refine ⟨fun l => passive_scan_aux_spec cfg now obs (jd obs) l, ?_, ?_⟩
  · intro l e he
    rw [passive_scan_aux_spec] at he
    obtain ⟨tgt, hfind, heq⟩ := Option.map_eq_some'.mp he
    have hq : passive_qualifies cfg obs tgt := by
      have := List.find?_some hfind
      simpa using this
    exact ⟨tgt, List.mem_of_find?_eq_some hfind, hq, hq.1, hq.2.2, heq.symm⟩
  · intro hnd
    exact passive_per_observer_le_one cfg now iv jd subs hnd obs.id

/-- C5 witness: the amended facts instantiated at a concrete observer
and a concrete foreign-owner target at zero range. -/
theorem C5_passive_detection_witness :
    (∃ tgt ∈ ([{ sampleSub with id := 2, owner_id := 2 }] : List SubState),
      passive_qualifies defaultCfg sampleSub tgt ∧
        ¬(tgt.owner_id = sampleSub.owner_id ∧ tgt.id = sampleSub.id) ∧
        5 ≤ passive_snr defaultCfg sampleSub tgt ∧
        mk_contact defaultCfg 10 sampleSub (fun _ => 0)
          { sampleSub with id := 2, owner_id := 2 } =
          mk_contact defaultCfg 10 sampleSub (fun _ => 0) tgt) ∧
    ((schedule_passive_contacts defaultCfg 10 (fun _ => 2) (fun _ _ => 0) [sampleSub]).filter
      (fun e => contact_observer e = some sampleSub.id)).length ≤ 1 := by
  have base := C5_passive_detection defaultCfg 10 (fun _ => 2) (fun _ _ => 0) sampleSub [sampleSub]
  have hq : passive_qualifies defaultCfg sampleSub { sampleSub with id := 2, owner_id := 2 } := by
    refine ⟨by simp [sampleSub], ?_, ?_⟩
    · have hdist : distance sampleSub.x sampleSub.y
          ({ sampleSub with id := 2, owner_id := 2 } : SubState).x
          ({ sampleSub with id := 2, owner_id := 2 } : SubState).y = 0 := by
        simp [distance, sampleSub]
      rw [hdist]
      norm_num [defaultCfg]
    · have hdist : distance sampleSub.x sampleSub.y
          ({ sampleSub with id := 2, owner_id := 2 } : SubState).x
          ({ sampleSub with id := 2, owner_id := 2 } : SubState).y = 0 := by
        simp [distance, sampleSub]
      unfold passive_snr
      rw [hdist]
      norm_num [sampleSub, defaultCfg]
  have hscan : passive_scan_aux defaultCfg 10 sampleSub (fun _ => 0)
      [{ sampleSub with id := 2, owner_id := 2 }] =
      some (mk_contact defaultCfg 10 sampleSub (fun _ => 0)
        { sampleSub with id := 2, owner_id := 2 }) := by
    rw [passive_scan_aux_spec, List.find?_cons_of_pos _ (by simp [hq])]
    rfl
  refine ⟨base.2.1 _ _ hscan, base.2.2 (by simp)⟩

/-- C5 counterexample: in a world whose submarines all belong to owner
1, a passive contact is still generated — the loop only excludes the
observer row itself, not the other vehicles of the same owner, so the
claim that no detection is ever generated against a vehicle of the
same owner fails. -/
theorem C5_counterexample :
    (∀ s ∈ ([sampleSub, { sampleSub with id := 2, last_report := 9 }] : List SubState),
      s.owner_id = 1) ∧
    schedule_passive_contacts defaultCfg 10 (fun _ => 2) (fun _ _ => 0)
      [sampleSub, { sampleSub with id := 2, last_report := 9 }] ≠ [] := by
  constructor
  · intro s hs
    rcases List.mem_cons.mp hs with h | h
    · subst h; rfl
    · rcases List.mem_cons.mp h with h2 | h2
      · subst h2; rfl
      · exact absurd h2 (List.not_mem_nil s)
  · have hq : passive_qualifies defaultCfg sampleSub
        { sampleSub with id := 2, last_report := 9 } := by
      refine ⟨by simp [sampleSub], ?_, ?_⟩
      · have hdist : distance sampleSub.x sampleSub.y
            ({ sampleSub with id := 2, last_report := 9 } : SubState).x
            ({ sampleSub with id := 2, last_report := 9 } : SubState).y = 0 := by
          simp [distance, sampleSub]
        rw [hdist]
        norm_num [defaultCfg]
      · have hdist : distance sampleSub.x sampleSub.y
            ({ sampleSub with id := 2, last_report := 9 } : SubState).x
            ({ sampleSub with id := 2, last_report := 9 } : SubState).y = 0 := by
          simp [distance, sampleSub]
        unfold passive_snr
        rw [hdist]
        norm_num [sampleSub, defaultCfg]
    have hscan : passive_scan_aux defaultCfg 10 sampleSub (fun _ => 0)
        [sampleSub, { sampleSub with id := 2, last_report := 9 }] =
        some (mk_contact defaultCfg 10 sampleSub (fun _ => 0)
          { sampleSub with id := 2, last_report := 9 }) := by
      rw [passive_scan_aux_spec,
        List.find?_cons_of_neg _ (by simp [passive_qualifies]),
        List.find?_cons_of_pos _ (by simp [hq])]
      rfl
    unfold schedule_passive_contacts
    rw [List.filterMap_cons]
    have hgate : ¬ ((10:ℝ) - sampleSub.last_report < 2) := by
      norm_num [sampleSub]
    rw [if_neg hgate, hscan]
    exact List.cons_ne_nil _ _

theorem find?_set {l : List SubState} {sid : ℕ} {s : SubState}
    (h : l.find? (fun x => x.id = sid) = some s) (s2 : SubState) (h2 : s2.id = s.id) :
    (l.map (fun x => if x.id = s2.id then s2 else x)).find? (fun x => x.id = sid) = some s2 := by
  induction l with
  | nil => simp at h
  | cons a rest ih =>
      by_cases ha : a.id = sid
      · rw [List.find?_cons_of_pos _ (by simp [ha])] at h
        have has : a = s := by simpa using h
        rw [List.map_cons, if_pos (by rw [has, h2])]
        rw [List.find?_cons_of_pos _ (by simp [h2, ← has, ha])]
      · rw [List.find?_cons_of_neg _ (by simp [ha])] at h
        have hsid : s.id = sid := by simpa using List.find?_some h
        rw [List.map_cons, if_neg (by rw [h2, hsid]; exact ha)]
        rw [List.find?_cons_of_neg _ (by simp [ha])]
        exact ih h

theorem find_sub_set_sub {w : World} {sid : ℕ} {s : SubState}
    (h : find_sub w sid = some s) (s2 : SubState) (h2 : s2.id = s.id) :
    find_sub (set_sub w s2) sid = some s2 := by
  unfold find_sub at h
  unfold find_sub set_sub
  exact find?_set h s2 h2

/-- C6, amended: the set-torpedo-heading command is rejected with the
wire-lost failure whenever the torpedo is no longer in wire mode and
applies the rate-limited heading change when it is in wire mode and
owned by the requester; the set-torpedo-depth command however has no
wire-mode check: it stores the target depth for the owner regardless
of control mode (see the counterexample), and both commands reject
missing and foreign torpedoes. -/
theorem C6_guidance_commands (cfg : Cfg) (w : World) (user tid : ℕ) (dtv d : ℝ)
    (hdg trn : Option ℝ) :
    (∀ t, find_torp w tid = some t → t.owner_id = user → t.control_mode ≠ Mode.wire →
      set_torp_heading cfg w user tid dtv hdg trn = (Resp.err Err.wireLost, w)) ∧
    (∀ t hv, find_torp w tid = some t → t.owner_id = user → t.control_mode = Mode.wire →
      hdg = some hv →
      set_torp_heading cfg w user tid dtv hdg trn =
        (Resp.ok, set_torp w { t with heading := wrapAngle (t.heading +
          clamp (wrapAngle (radians hv - t.heading))
            (-(radians cfg.torpedo.turn_rate_deg_s * dtv))
            (radians cfg.torpedo.turn_rate_deg_s * dtv)) })) ∧
    (∀ t, find_torp w tid = some t → t.owner_id = user →
      set_torp_depth w user tid d = (Resp.ok, set_torp w { t with target_depth := some d })) ∧
    (find_torp w tid = none →
      set_torp_depth w user tid d = (Resp.err Err.torpedoNotFound, w) ∧
      set_torp_heading cfg w user tid dtv hdg trn = (Resp.err Err.notFound, w)) ∧
    (∀ t, find_torp w tid = some t → t.owner_id ≠ user →
      set_torp_depth w user tid d = (Resp.err Err.notYourTorpedo, w) ∧
      set_torp_heading cfg w user tid dtv hdg trn = (Resp.err Err.notFound, w)) := by
  refine ⟨?_, ?_, ?_, ?_, ?_⟩
  · intro t hf hown hmode
    simp only [set_torp_heading, hf]
    rw [if_neg (by simp [hown]), if_pos hmode]
  · intro t hv hf hown hmode hh
    subst hh
    simp only [set_torp_heading, hf]
    rw [if_neg (by simp [hown]), if_neg (by simp [hmode])]
  · intro t hf hown
    simp only [set_torp_depth, hf]
    rw [if_neg (by simp [hown])]
  · intro hf
    constructor
    · simp only [set_torp_depth, hf]
    · simp only [set_torp_heading, hf]
  · intro t hf hown
    constructor
    · simp only [set_torp_depth, hf]
      rw [if_pos hown]
    · simp only [set_torp_heading, hf]
      rw [if_pos hown]

/-- C6 counterexample: a free-mode torpedo accepts the depth command:
the set-torpedo-depth route performs no wire-mode check, so the claim
that it is rejected once the wire is lost fails. -/
theorem C6_counterexample :
    ({ sampleTorp with control_mode := Mode.free } : TorpState).control_mode ≠ Mode.wire ∧
    (set_torp_depth ⟨[], [{ sampleTorp with control_mode := Mode.free }], []⟩ 1 1 (-50)).1 =
      Resp.ok ∧
    (find_torp (set_torp_depth ⟨[], [{ sampleTorp with control_mode := Mode.free }], []⟩
        1 1 (-50)).2 1 =
      some { sampleTorp with control_mode := Mode.free, target_depth := some (-50) }) := by
  refine ⟨by simp, ?_, ?_⟩
  · simp [set_torp_depth, find_torp, sampleTorp]
  · simp [set_torp_depth, find_torp, set_torp, sampleTorp]

/-- C6 witness: the amended command behaviour instantiated at concrete
free-mode and wire-mode torpedoes. -/
theorem C6_guidance_commands_witness :
    set_torp_heading defaultCfg ⟨[], [{ sampleTorp with control_mode := Mode.free }], []⟩ 1 1 0.1
      (some 90) none =
      (Resp.err Err.wireLost, ⟨[], [{ sampleTorp with control_mode := Mode.free }], []⟩) ∧
    set_torp_depth ⟨[], [{ sampleTorp with control_mode := Mode.free }], []⟩ 1 1 (-50) =
      (Resp.ok, set_torp ⟨[], [{ sampleTorp with control_mode := Mode.free }], []⟩
        { sampleTorp with control_mode := Mode.free, target_depth := some (-50) }) ∧
    set_torp_heading defaultCfg ⟨[], [sampleTorp], []⟩ 1 1 0.1 (some 90) none =
      (Resp.ok, set_torp ⟨[], [sampleTorp], []⟩
        { sampleTorp with heading := wrapAngle (sampleTorp.heading +
          clamp (wrapAngle (radians 90 - sampleTorp.heading))
            (-(radians defaultCfg.torpedo.turn_rate_deg_s * 0.1))
            (radians defaultCfg.torpedo.turn_rate_deg_s * 0.1)) }) := by
  have base1 := C6_guidance_commands defaultCfg
    ⟨[], [{ sampleTorp with control_mode := Mode.free }], []⟩ 1 1 0.1 (-50) (some 90) none
  have base2 := C6_guidance_commands defaultCfg ⟨[], [sampleTorp], []⟩ 1 1 0.1 (-50)
    (some 90) none
  refine ⟨base1.1 { sampleTorp with control_mode := Mode.free }
    (by simp [find_torp, sampleTorp]) rfl (by simp), ?_, ?_⟩
  · exact base1.2.2.1 { sampleTorp with control_mode := Mode.free }
      (by simp [find_torp, sampleTorp]) rfl
  · exact base2.2.1 sampleTorp 90 (by simp [find_torp, sampleTorp]) rfl rfl rfl

/-- C7: the active ping command is rejected with a structured failure
when the battery lies below the configured minimum, or below the ping
cost base + width times per-degree cost; when the command succeeds the
battery of the submarine decreases by exactly that cost. -/
theorem C7_ping_battery (cfg : Cfg) (w : World) (user sid : ℕ)
    (beam mr crel now : ℝ) (s : SubState)
    (hs : find_sub w sid = some s) (hown : s.owner_id = user)
    (hb100 : s.battery ≤ 100)
    (hcost : 0 ≤ cfg.active_power.cost_per_ping + beam * cfg.active_power.cost_per_degree) :
    (s.battery < cfg.active_power.min_battery →
      ping_cmd cfg w user sid beam mr crel now = (Resp.err Err.batteryTooLow, w, [])) ∧
    (¬ s.battery < cfg.active_power.min_battery →
      s.battery < cfg.active_power.cost_per_ping + beam * cfg.active_power.cost_per_degree →
      ping_cmd cfg w user sid beam mr crel now = (Resp.err Err.notEnoughBattery, w, [])) ∧
    ((ping_cmd cfg w user sid beam mr crel now).1 = Resp.ok →
      ∃ s', find_sub (ping_cmd cfg w user sid beam mr crel now).2.1 sid = some s' ∧
        s'.battery = s.battery -
          (cfg.active_power.cost_per_ping + beam * cfg.active_power.cost_per_degree)) := by
  refine ⟨?_, ?_, ?_⟩
  · intro h
    simp only [ping_cmd, hs]
    rw [if_neg (by simp [hown]), if_pos h]
  · intro h1 h2
    simp only [ping_cmd, hs]
    rw [if_neg (by simp [hown]), if_neg h1, if_pos h2]
  · intro hok
    by_cases h1 : s.battery < cfg.active_power.min_battery
    · exfalso
      simp only [ping_cmd, hs] at hok
      rw [if_neg (by simp [hown]), if_pos h1] at hok
      exact absurd hok (by simp)
    · by_cases h2 : s.battery <
          cfg.active_power.cost_per_ping + beam * cfg.active_power.cost_per_degree
      · exfalso
        simp only [ping_cmd, hs] at hok
        rw [if_neg (by simp [hown]), if_neg h1, if_pos h2] at hok
        exact absurd hok (by simp)
      · by_cases hc : (match s.ping_cooldown with | some c => now < c | none => False)
        · exfalso
          simp only [ping_cmd, hs] at hok
          rw [if_neg (by simp [hown]), if_neg h1, if_neg h2, if_pos hc] at hok
          exact absurd hok (by simp)
        · refine ⟨{ s with
              battery := clamp (s.battery -
                (cfg.active_power.cost_per_ping + beam * cfg.active_power.cost_per_degree)) 0 100,
              ping_cooldown := some (now + 5) }, ?_, ?_⟩
          · simp only [ping_cmd, hs]
            rw [if_neg (by simp [hown]), if_neg h1, if_neg h2, if_neg hc]
            exact find_sub_set_sub hs _ rfl
          · have hlow : 0 ≤ s.battery -
                (cfg.active_power.cost_per_ping + beam * cfg.active_power.cost_per_degree) := by
              linarith [not_lt.mp h2]
            have hhigh : s.battery -
                (cfg.active_power.cost_per_ping + beam * cfg.active_power.cost_per_degree) ≤
                100 := by linarith
            exact clamp_eq_of_mem hlow hhigh

/-- C7 witness: the ping-cost facts instantiated at a concrete world:
a battery of 50 with beam 20 succeeds and pays 1 + 20 times 0.01, and
a battery of 3 is rejected against the minimum of 5. -/
theorem C7_ping_battery_witness :
    ping_cmd defaultCfg ⟨[{ sampleSub with battery := 3 }], [], []⟩ 1 1 20 6000 0 0 =
      (Resp.err Err.batteryTooLow, ⟨[{ sampleSub with battery := 3 }], [], []⟩, []) ∧
    ((ping_cmd defaultCfg ⟨[sampleSub], [], []⟩ 1 1 20 6000 0 0).1 = Resp.ok →
      ∃ s', find_sub (ping_cmd defaultCfg ⟨[sampleSub], [], []⟩ 1 1 20 6000 0 0).2.1 1 =
          some s' ∧
        s'.battery = sampleSub.battery -
          (defaultCfg.active_power.cost_per_ping +
            20 * defaultCfg.active_power.cost_per_degree)) := by
  have base1 := C7_ping_battery defaultCfg ⟨[{ sampleSub with battery := 3 }], [], []⟩ 1 1
    20 6000 0 0 { sampleSub with battery := 3 } (by simp [find_sub, sampleSub]) rfl
    (by norm_num [sampleSub]) (by norm_num [defaultCfg])
  have base2 := C7_ping_battery defaultCfg ⟨[sampleSub], [], []⟩ 1 1 20 6000 0 0 sampleSub
    (by simp [find_sub, sampleSub]) rfl (by norm_num [sampleSub]) (by norm_num [defaultCfg])
  exact ⟨base1.1 (by norm_num [sampleSub, defaultCfg]), base2.2.2⟩

/-- C8: every modelled command handler is atomic with respect to
rejection: whenever ping, snorkel, set-torpedo-depth,
set-torpedo-heading or detonate returns a structured failure, the
world is returned unchanged (for ping the cooldown rejection happens
after the in-session battery write, but the handler never commits on a
rejection, so the request session rollback discards it). -/
theorem C8_rejection_atomicity (cfg : Cfg) :
    (∀ w : World, ∀ user sid : ℕ, ∀ beam mr crel now : ℝ, ∀ e : Err,
      (ping_cmd cfg w user sid beam mr crel now).1 = Resp.err e →
      (ping_cmd cfg w user sid beam mr crel now).2.1 = w) ∧
    (∀ w : World, ∀ user sid : ℕ, ∀ tog : Bool, ∀ onf : Option Bool, ∀ e : Err,
      (snorkel cfg w user sid tog onf).1 = Resp.err e →
      (snorkel cfg w user sid tog onf).2 = w) ∧
    (∀ w : World, ∀ user tid : ℕ, ∀ d : ℝ, ∀ e : Err,
      (set_torp_depth w user tid d).1 = Resp.err e →
      (set_torp_depth w user tid d).2 = w) ∧
    (∀ w : World, ∀ user tid : ℕ, ∀ dtv : ℝ, ∀ hdg trn : Option ℝ, ∀ e : Err,
      (set_torp_heading cfg w user tid dtv hdg trn).1 = Resp.err e →
      (set_torp_heading cfg w user tid dtv hdg trn).2 = w) ∧
    (∀ w : World, ∀ user tid : ℕ, ∀ et : ℝ, ∀ e : Err,
      (detonate_torp cfg w user tid et).1 = Resp.err e →
      (detonate_torp cfg w user tid et).2.1 = w) := by
  refine ⟨?_, ?_, ?_, ?_, ?_⟩
  · intro w user sid beam mr crel now e h
    unfold ping_cmd at h ⊢
    cases hf : find_sub w sid with
    | none => rfl
    | some s =>
        simp only [hf] at h ⊢
        split_ifs at h ⊢ <;> rfl
  · intro w user sid tog onf e h
    unfold snorkel at h ⊢
    cases hf : find_sub w sid with
    | none => rfl
    | some s =>
        simp only [hf] at h ⊢
        split_ifs at h ⊢ <;> rfl
  · intro w user tid d e h
    unfold set_torp_depth at h ⊢
    cases hf : find_torp w tid with
    | none => rfl
    | some t =>
        simp only [hf] at h ⊢
        split_ifs at h ⊢ <;> rfl
  · intro w user tid dtv hdg trn e h
    unfold set_torp_heading at h ⊢
    cases hf : find_torp w tid with
    | none => rfl
    | some t =>
        simp only [hf] at h ⊢
        split_ifs at h ⊢ <;>
          first
            | rfl
            | (cases hdg with
                | some hv => simp at h
                | none =>
                    cases trn with
                    | some tv => simp at h
                    | none => rfl)
  · intro w user tid et e h
    unfold detonate_torp at h ⊢
    cases hf : find_torp w tid with
    | none => rfl
    | some t =>
        simp only [hf] at h ⊢
        split_ifs at h ⊢ <;> rfl

/-- C8 witness: atomicity instantiated at concrete rejected commands
against an empty world. -/
theorem C8_rejection_atomicity_witness :
    (snorkel defaultCfg ⟨[], [], []⟩ 0 0 false none).2 = (⟨[], [], []⟩ : World) ∧
    (set_torp_depth ⟨[], [], []⟩ 0 0 5).2 = (⟨[], [], []⟩ : World) := by
  have base := C8_rejection_atomicity defaultCfg
  exact ⟨base.2.1 _ 0 0 false none Err.notFound (by simp [snorkel, find_sub]),
    base.2.2.1 _ 0 0 5 Err.torpedoNotFound (by simp [set_torp_depth, find_torp])⟩

end SubBrawl
